import Mathlib

/-!
Verification of the hydrogen-peroxide AF_XDP data-plane engine.

This file gives a shallow embedding, in Lean 4, of the parts of the Rust
sources relevant to the spec claims:

* `src/xsk/frame_allocator.rs` — the UMEM frame pool free-list;
* `src/xsk/sys/xsk_h.rs`       — producer/consumer ring primitives with
  32-bit wrapping indices;
* `src/xsk/socket.rs`          — the `TxSocket::tx` ready-bitmap logic and
  its needs-wakeup gating;
* `src/xsk/umem.rs`            — `Umem::reclaim_fq_bufs`;
* `src/net/*.rs`               — byte-level packet synthesis
  (`NetStack::send_payload`), the ARP receive path, the ARP cache update,
  and the RX-side UDP payload extraction.

Machine integers are modelled as `Nat` with explicit reduction modulo
`2^32` / `2^64` / `2^16` wherever the Rust code relies on wrapping (u32 ring
counters, release-mode usize arithmetic, `as u16` casts).  Byte buffers are
modelled as total functions `Nat → Nat` together with an explicit length,
and all multi-byte header fields are written in network byte order exactly
as the `htons`/`htonl` setters lay them out in memory.
-/

namespace H2O2

/-- Reduction modulo `2^32`: the value of a Rust `u32`. -/
def wrap32 (n : Nat) : Nat := n % 2 ^ 32

/-- Wrapping `u32` subtraction `a - b` (both operands already reduced). -/
def sub32 (a b : Nat) : Nat := (a % 2 ^ 32 + 2 ^ 32 - b % 2 ^ 32) % 2 ^ 32

/-- Reduction modulo `2^64`: the value of a Rust `usize` (release build). -/
def wrap64 (n : Nat) : Nat := n % 2 ^ 64

/-- Wrapping `usize` subtraction (release-build semantics). -/
def sub64 (a b : Nat) : Nat := (a % 2 ^ 64 + 2 ^ 64 - b % 2 ^ 64) % 2 ^ 64

/-! ## Frame allocator (`src/xsk/frame_allocator.rs`)

The `FrameAllocator` keeps a `Vec<u64>` of free frame offsets used as a
stack (`push`/`pop` at the vector end).  We model the stack with its top at
the head of a list, so `Vec::push` is `cons` and `Vec::pop` takes the head.
-/

namespace Xsk

/-- Model of `FrameAllocator`: the free-list of frame byte offsets.
The list is in pop order (head = next frame to be handed out). -/
structure FrameAllocator where
  frameAddr : List Nat

/-- Model of `FrameAllocator::new`: pushes `i * frame_size` for
`i = num_frames-1, …, 1, 0` (the `(0..num_frames).rev()` loop), so the
offsets sit on the stack in descending order and pop in ascending order. -/
def FrameAllocator.new (numFrames frameSize : Nat) : FrameAllocator :=
  { frameAddr := (List.range numFrames).reverse.foldl (fun l i => i * frameSize :: l) [] }

/-- Model of `FrameAllocator::alloc_frame`: `self.frame_addr.pop()`. -/
def FrameAllocator.allocFrame (a : FrameAllocator) : Option Nat × FrameAllocator :=
  match a.frameAddr with
  | [] => (none, a)
  | x :: rest => (some x, { frameAddr := rest })

/-- The allocator state after `k` successive `alloc_frame` calls. -/
def FrameAllocator.allocN (a : FrameAllocator) : Nat → FrameAllocator
  | 0 => a
  | k + 1 => (a.allocN k).allocFrame.2

/-- The result of the `(k+1)`-th successive `alloc_frame` call (0-indexed). -/
def FrameAllocator.nthAlloc (a : FrameAllocator) (k : Nat) : Option Nat :=
  (a.allocN k).allocFrame.1

/-! ## Ring primitives (`src/xsk/sys/xsk_h.rs`)

The shared-memory ring bookkeeping words are `u32` free-running counters;
all arithmetic wraps modulo `2^32`.  The memory fences
(`libbpf_smp_rmb`/`wmb`/`rwmb`) order accesses against the kernel and have
no effect on the index values themselves, so they do not appear in the
functional model.
-/

/-- User-side view of an `xsk_ring_prod`: the shared `producer` and
`consumer` words, the locally cached copies, the flags word and the ring
size (a power of two).  All index fields are `u32` counters. -/
structure XskRingProd where
  size : Nat
  producer : Nat
  consumer : Nat
  cachedProd : Nat
  cachedCons : Nat
  flags : Nat

/-- User-side view of an `xsk_ring_cons` (dual of `XskRingProd`). -/
structure XskRingCons where
  size : Nat
  producer : Nat
  consumer : Nat
  cachedProd : Nat
  cachedCons : Nat
  flags : Nat

/-- Model of `xsk_prod_nb_free`: returns the number of free entries, and
refreshes `cached_cons` from the shared consumer word (plus `size`) when
fewer than `nb` entries are cached. -/
def xskProdNbFree (r : XskRingProd) (nb : Nat) : Nat × XskRingProd :=
  let freeEntries := sub32 r.cachedCons r.cachedProd
  if nb ≤ freeEntries then (freeEntries, r)
  else
    let cc := wrap32 (r.consumer + r.size)
    (sub32 cc r.cachedProd, { r with cachedCons := cc })

/-- Model of `xsk_ring_prod__reserve`.  Returns `(ret, idx, ring)`: `ret` is
`nb` on success and `0` on failure, `idx` is the out-parameter (left at its
input value `idx0` on failure, as in the C-style code). -/
def xskRingProdReserve (r : XskRingProd) (nb : Nat) (idx0 : Nat) :
    Nat × Nat × XskRingProd :=
  let (free, r1) := xskProdNbFree r nb
  if free < nb then (0, idx0, r1)
  else (nb, r1.cachedProd, { r1 with cachedProd := wrap32 (r1.cachedProd + nb) })

/-- Model of `xsk_ring_prod__submit`: publishes `producer += nb` (after a
release fence, not modelled). -/
def xskRingProdSubmit (r : XskRingProd) (nb : Nat) : XskRingProd :=
  { r with producer := wrap32 (r.producer + nb) }

/-- Model of `xsk_ring_prod__needs_wakeup`: tests `XDP_RING_NEED_WAKEUP`
(bit 0) in the ring flags word. -/
def xskRingProdNeedsWakeup (r : XskRingProd) : Bool :=
  r.flags &&& 1 ≠ 0

/-- Model of `xsk_cons_nb_avail`: `cached_prod - cached_cons`, refreshing
`cached_prod` from the shared producer word only when the cached difference
is zero; the result is capped at `nb`. -/
def xskConsNbAvail (r : XskRingCons) (nb : Nat) : Nat × XskRingCons :=
  let entries := sub32 r.cachedProd r.cachedCons
  let (entries, r1) :=
    if entries = 0 then
      let cp := r.producer
      (sub32 cp r.cachedCons, { r with cachedProd := cp })
    else (entries, r)
  if nb < entries then (nb, r1) else (entries, r1)

/-- Model of `xsk_ring_cons__peek`: on a positive avail count, sets the out
parameter `idx` to `cached_cons` and bumps `cached_cons`. -/
def xskRingConsPeek (r : XskRingCons) (nb : Nat) (idx0 : Nat) :
    Nat × Nat × XskRingCons :=
  let (entries, r1) := xskConsNbAvail r nb
  if 0 < entries then
    (entries, r1.cachedCons, { r1 with cachedCons := wrap32 (r1.cachedCons + entries) })
  else (entries, idx0, r1)

/-- Model of `xsk_ring_cons__release`: publishes `consumer += nb`. -/
def xskRingConsRelease (r : XskRingCons) (nb : Nat) : XskRingCons :=
  { r with consumer := wrap32 (r.consumer + nb) }

/-! ## TxSocket (`src/xsk/socket.rs`)

`TxSocket::tx` marks a slot ready and submits the run of consecutive ready
slots starting at `current_tx_slot`.  The `ready_for_tx_slots` vector is
modelled as a boolean-valued function together with the ring size; the TX
ring producer counter tracks submissions.  The environment inputs are the
configured wakeup mode (`needs_wakeup.value`) and the TX ring flags bit
read by `tx.needs_wakeup()`.
-/

/-- Pointwise update of a function-modelled array. -/
def upd {α : Type} (f : Nat → α) (i : Nat) (v : α) : Nat → α :=
  fun j => if j = i then v else f j

/-- State of a `TxSocket`, restricted to the fields `ready_for_tx_slots`
and `current_tx_slot` together with its TX ring producer index.  As with
the ghost counters used for the ring lemmas, `producer` is the unwrapped
(monotone) submission counter; the shared ring word holds its `u32`
truncation and `tx.submit(n)` adds `n` to it. -/
structure TxState where
  txSize : Nat
  ready : Nat → Bool
  currentTxSlot : Nat
  producer : Nat

/-- Model of the loop body of `TxSocket::ready_for_tx_slot_counts`: runs for
at most `fuel` iterations (the code iterates `0..slots_count`), breaking at
the first slot that is not ready; each counted slot is cleared and the
cursor advances modulo the slot count. Returns the updated slots, the final
cursor and the count. -/
def readyLoop (fuel : Nat) (size : Nat) (slots : Nat → Bool) (cur : Nat) :
    (Nat → Bool) × Nat × Nat :=
  match fuel with
  | 0 => (slots, cur, 0)
  | fuel + 1 =>
    if slots cur then
      let (s, c, n) := readyLoop fuel size (upd slots cur false) ((cur + 1) % size)
      (s, c, n + 1)
    else (slots, cur, 0)

/-- Model of `TxSocket::ready_for_tx_slot_counts`. -/
def readyForTxSlotCounts (s : TxState) : TxState × Nat :=
  let (slots, cur, n) := readyLoop s.txSize s.txSize s.ready s.currentTxSlot
  ({ s with ready := slots, currentTxSlot := cur }, n)

/-- Result of one `TxSocket::tx` call: the new state, the count passed to
`tx.submit` (0 when no submit happened) and whether `sendto()` was
invoked. -/
structure TxResult where
  state : TxState
  submitted : Nat
  sendtoCalled : Bool

/-- Model of `TxSocket::tx`.  `index` is `desc.index()`; `needsWakeupCfg`
is the configured `needs_wakeup.value`; `txRingNeedsWakeup` is the value of
the TX ring flags bit at the time `tx.needs_wakeup()` is read.  When the run
count is zero the code returns before submitting or touching `sendto`. -/
def txCall (s : TxState) (index : Nat) (needsWakeupCfg txRingNeedsWakeup : Bool) :
    TxResult :=
  let s1 : TxState := { s with ready := upd s.ready index true }
  let (s2, count) := readyForTxSlotCounts s1
  if count = 0 then { state := s2, submitted := 0, sendtoCalled := false }
  else
    let s3 : TxState := { s2 with producer := s2.producer + count }
    let called := if needsWakeupCfg then txRingNeedsWakeup else true
    { state := s3, submitted := count, sendtoCalled := called }

/-! ## UMEM (`src/xsk/umem.rs`)

`Umem::reclaim_fq_bufs` re-arms the fill queue after an RX batch.  The
retry loop (`while ret != num_bufs`) is modelled with explicit fuel; the
kernel-side consumer index is treated as unchanged during the call, and
`socket.poll()` invocations are counted.
-/

/-- The `xsk::BATCH_SIZE` tuning constant. -/
def batchSize : Nat := 64

/-- The UMEM state relevant to `reclaim_fq_bufs`: its fill queue (a
producer ring) and the configured `needs_wakeup.value`. -/
structure UmemState where
  fq : XskRingProd
  needsWakeupCfg : Bool

/-- Model of the `while ret != num_bufs` retry loop in `reclaim_fq_bufs`,
starting with the first `reserve` call before the loop.  Returns the ring
after a successful reserve together with the number of `socket.poll()`
calls made, or `none` when the fuel runs out. -/
def fqReserveRetry (fuel : Nat) (needsWakeupCfg : Bool) (fq : XskRingProd)
    (numBufs polls : Nat) : Option (XskRingProd × Nat) :=
  let (ret, _, fq1) := xskRingProdReserve fq numBufs 0
  if ret = numBufs then some (fq1, polls)
  else
    match fuel with
    | 0 => none
    | fuel + 1 =>
        let polls1 :=
          if needsWakeupCfg && xskRingProdNeedsWakeup fq1 then polls + 1 else polls
        fqReserveRetry fuel needsWakeupCfg fq1 numBufs polls1

/-- Model of `Umem::reclaim_fq_bufs`.  Returns `(state, polls, submitted)`
where `polls` counts `socket.poll()` calls and `submitted` is the count
passed to `fq.submit` (`0` when no submit happened). -/
def reclaimFqBufs (fuel : Nat) (u : UmemState) (numBufs : Nat) :
    Option (UmemState × Nat × Nat) :=
  if numBufs = 0 then
    let polls := if u.needsWakeupCfg && xskRingProdNeedsWakeup u.fq then 1 else 0
    some (u, polls, 0)
  else
    let (free, fq1) := xskProdNbFree u.fq batchSize
    if 0 < free then
      match fqReserveRetry fuel u.needsWakeupCfg fq1 numBufs 0 with
      | none => none
      | some (fq2, polls) =>
          some ({ u with fq := xskRingProdSubmit fq2 numBufs }, polls, numBufs)
    else some ({ u with fq := fq1 }, 0, 0)

/-! ## Configuration (`src/xsk/configuration.rs`, `src/main.rs`) -/

/-- Model of `XskMode`. -/
inductive XskMode where
  | skb
  | drv
  | drvZeroCopy
deriving DecidableEq

/-- Model of the configuration errors raised during validation. -/
inductive ConfigError where
  | invalidConfigWithMissingProperty (property : String)
  | invalidXskMode
deriving DecidableEq

/-- Model of `Configuration`.  The `net_allocator` callback is kept only as
presence information (`Option Unit`), which is all `validate` inspects. -/
structure Configuration where
  interface : Option String
  address : Option Nat
  port : Option Nat
  netAllocator : Option Unit
  xdpProgPath : String
  queues : List Nat
  socksPerQueue : Nat
  rxSize : Nat
  txSize : Nat
  frameSize : Nat
  mode : XskMode
  needsWakeup : Bool

/-- Model of `Configuration::validate`: checks, in order, that the
interface, bind address, bind port and net allocator are set. -/
def Configuration.validate (c : Configuration) : Except ConfigError Unit :=
  if c.interface.isNone then
    .error (.invalidConfigWithMissingProperty "interface")
  else if c.address.isNone then
    .error (.invalidConfigWithMissingProperty "bind address")
  else if c.port.isNone then
    .error (.invalidConfigWithMissingProperty "bind port")
  else if c.netAllocator.isNone then
    .error (.invalidConfigWithMissingProperty "net allocator")
  else .ok ()

/-- Model of `XskMode::from_str`: accepts exactly the strings `skb`, `drv`
and `drv-zc`. -/
def XskMode.fromStr (s : String) : Except ConfigError XskMode :=
  if s = "skb" then .ok .skb
  else if s = "drv" then .ok .drv
  else if s = "drv-zc" then .ok .drvZeroCopy
  else .error .invalidXskMode

/-- Model of `validate_socks_per_queue` in `src/main.rs`, applied to the
already-parsed numeric value: accepts `val` iff `val != 0 && (val & (val -
1)) == 0`. -/
def validateSocksPerQueue (val : Nat) : Except String Nat :=
  if val ≠ 0 ∧ val &&& (val - 1) = 0 then .ok val else .error "not a power of 2"

end Xsk

/-! ## Protocol layer (`src/net/*.rs`)

Packet frames are modelled as total byte functions `Nat → Nat` (`Buf`)
together with explicit buffer lengths.  All multi-byte header fields are
laid out in network byte order, exactly as the `htons`/`htonl` setters
store them: a `u16` field assigned `htons(v)` occupies two memory bytes
`v >> 8, v & 0xff` regardless of host endianness, and dually for `ntohs`
reads.
-/

namespace Net

/-- A packet frame: byte value at each offset. -/
abbrev Buf := Nat → Nat

/-- Write the bytes of `l` at consecutive offsets starting at `off`
(models copying a `[u8; N]` field such as a MAC address). -/
def writeBytes (b : Buf) (off : Nat) : List Nat → Buf
  | [] => b
  | v :: rest => writeBytes (Xsk.upd b off v) (off + 1) rest

/-- Store a 16-bit value in network byte order at `off` (models assigning
`htons(v)` to a `u16` struct field). -/
def write16be (b : Buf) (off v : Nat) : Buf :=
  Xsk.upd (Xsk.upd b off (v / 2 ^ 8 % 2 ^ 8)) (off + 1) (v % 2 ^ 8)

/-- Store a 32-bit value in network byte order at `off` (models assigning
`htonl(v)` to a `u32` struct field). -/
def write32be (b : Buf) (off v : Nat) : Buf :=
  Xsk.upd (Xsk.upd (Xsk.upd (Xsk.upd b off
    (v / 2 ^ 24 % 2 ^ 8)) (off + 1) (v / 2 ^ 16 % 2 ^ 8)) (off + 2) (v / 2 ^ 8 % 2 ^ 8))
    (off + 3) (v % 2 ^ 8)

/-- Read a 16-bit field at `off` as a host value (models `ntohs(field)`). -/
def read16be (b : Buf) (off : Nat) : Nat :=
  b off * 2 ^ 8 + b (off + 1)

/-- Read a 32-bit field at `off` as a host value (models `ntohl(field)`). -/
def read32be (b : Buf) (off : Nat) : Nat :=
  b off * 2 ^ 24 + b (off + 1) * 2 ^ 16 + b (off + 2) * 2 ^ 8 + b (off + 3)

/-- Size of `EthHdr` (two MACs and the ethertype). -/
def ethHdrSize : Nat := 14

/-- Size of `Ip4Hdr` (no options). -/
def ip4HdrSize : Nat := 20

/-- Size of `UdpHdr`. -/
def udpHdrSize : Nat := 8

/-! ### Ethernet header setters (`src/net/eth.rs`), struct mapped at `base` -/

/-- Model of `EthHdr::set_dst_address`. -/
def ethSetDstAddress (b : Buf) (base : Nat) (mac : List Nat) : Buf :=
  writeBytes b base mac

/-- Model of `EthHdr::set_src_address`. -/
def ethSetSrcAddress (b : Buf) (base : Nat) (mac : List Nat) : Buf :=
  writeBytes b (base + 6) mac

/-- Model of `EthHdr::ip4` (ethertype 0x0800). -/
def ethSetTypeIp4 (b : Buf) (base : Nat) : Buf :=
  write16be b (base + 12) 0x0800

/-- Model of `EthHdr::arp` (ethertype 0x0806). -/
def ethSetTypeArp (b : Buf) (base : Nat) : Buf :=
  write16be b (base + 12) 0x0806

/-! ### IPv4 header setters (`src/net/ip4.rs`), struct mapped at `base`

Field offsets within the header: `hdr_len_version` +0, `tos` +1,
`total_len` +2, `id` +4, `flags_frag_offset` +6, `ttl` +8, `proto` +9,
`checksum` +10, `src_addr` +12, `dst_addr` +16.
-/

/-- Model of `Ip4Hdr::set_version`. -/
def ip4SetVersion (b : Buf) (base v : Nat) : Buf :=
  Xsk.upd b base ((b base &&& 0xf) ||| ((v &&& 0xf) <<< 4))

/-- Model of `Ip4Hdr::set_hdr_len`. -/
def ip4SetHdrLen (b : Buf) (base v : Nat) : Buf :=
  Xsk.upd b base ((b base &&& 0xf0) ||| (v &&& 0xf))

/-- Model of `Ip4Hdr::set_flags`: read-modify-write on the 16-bit
`flags_frag_offset` field through `ntohs`/`htons`. -/
def ip4SetFlags (b : Buf) (base v : Nat) : Buf :=
  let ffo := read16be b (base + 6)
  write16be b (base + 6) ((ffo &&& 0x2000) ||| ((v &&& 0x7) <<< 13))

/-- Model of `Ip4Hdr::set_frag_offset` (note the source masks the new
value with `0x2000`, not `0x1fff`). -/
def ip4SetFragOffset (b : Buf) (base v : Nat) : Buf :=
  let ffo := read16be b (base + 6)
  write16be b (base + 6) ((ffo &&& 0xe000) ||| (v &&& 0x2000))

/-- Model of `Ip4Hdr::with_packet_buf` defaults: version 4, IHL 5, TOS 0,
ID 0, flags DF, fragment offset 0, TTL 64 (in source order). -/
def ip4WithDefaults (b : Buf) (base : Nat) : Buf :=
  let b := ip4SetVersion b base 4
  let b := ip4SetHdrLen b base 5
  let b := Xsk.upd b (base + 1) 0
  let b := write16be b (base + 4) 0
  let b := ip4SetFlags b base 2
  let b := ip4SetFragOffset b base 0
  Xsk.upd b (base + 8) 64

/-- Model of `Ip4Hdr::set_total_length` (`v` is the already-cast `u16`). -/
def ip4SetTotalLength (b : Buf) (base v : Nat) : Buf :=
  write16be b (base + 2) v

/-- Model of `Ip4Hdr::udp` (protocol 17). -/
def ip4SetProtoUdp (b : Buf) (base : Nat) : Buf :=
  Xsk.upd b (base + 9) 17

/-- Model of `Ip4Hdr::set_src_address`. -/
def ip4SetSrcAddress (b : Buf) (base v : Nat) : Buf :=
  write32be b (base + 12) v

/-- Model of `Ip4Hdr::set_dst_address`. -/
def ip4SetDstAddress (b : Buf) (base v : Nat) : Buf :=
  write32be b (base + 16) v

/-- The word-summing loop of `Ip4Hdr::calc_checksum`: `k` 16-bit
big-endian words read from offsets `off, off+2, …`. -/
def checksumWordsGo (b : Buf) (off : Nat) : Nat → Nat
  | 0 => 0
  | k + 1 => ((b off <<< 8) ||| b (off + 1)) + checksumWordsGo b (off + 2) k

/-- The carry-folding loop of `Ip4Hdr::calc_checksum`:
`while sum >> 16 != 0 { sum = (sum >> 16) + (sum & 0xffff) }`. -/
def foldChecksum (s : Nat) : Nat :=
  if h : s >>> 16 ≠ 0 then foldChecksum ((s >>> 16) + (s &&& 0xffff)) else s
termination_by s
decreasing_by
  have h1 : s &&& 0xffff = s % 2 ^ 16 := by
    have h := Nat.and_pow_two_sub_one_eq_mod s 16
    norm_num at h ⊢
    exact h
  have h2 : s >>> 16 = s / 2 ^ 16 := Nat.shiftRight_eq_div_pow s 16
  simp only [h1, h2] at *
  omega

/-- Model of `Ip4Hdr::calc_checksum`: zero the checksum field, sum the ten
big-endian words of the 20 header bytes, fold the carries, complement
(`!sum as u16` on a `u32` sum), and store the result in network byte
order. -/
def ip4CalcChecksum (b : Buf) (base : Nat) : Buf :=
  let b1 := write16be b (base + 10) 0
  let sum := foldChecksum (checksumWordsGo b1 base 10)
  write16be b1 (base + 10) ((2 ^ 32 - 1 - sum) % 2 ^ 16)

/-! ### UDP header setters (`src/net/udp.rs`), struct mapped at `base` -/

/-- Model of `UdpHdr::with_packet_buf`: zeroes the checksum field. -/
def udpWithDefaults (b : Buf) (base : Nat) : Buf :=
  write16be b (base + 6) 0

/-- Model of `UdpHdr::set_src_port`. -/
def udpSetSrcPort (b : Buf) (base v : Nat) : Buf :=
  write16be b base v

/-- Model of `UdpHdr::set_dst_port`. -/
def udpSetDstPort (b : Buf) (base v : Nat) : Buf :=
  write16be b (base + 2) v

/-- Model of `UdpHdr::set_length` (`v` is the already-cast `u16`). -/
def udpSetLength (b : Buf) (base v : Nat) : Buf :=
  write16be b (base + 4) v

/-! ### Outbound path (`src/net/output.rs`) -/

/-- The `NetStack` fields read by `send_payload`: the interface MAC, bind
address/port and the ARP cache (IPv4 address, as a `u32` host value, to
MAC). -/
structure NetStackModel where
  ifaceMac : List Nat
  bindAddress : Nat
  bindPort : Nat
  arpTable : Nat → Option (List Nat)

/-- Model of `NetStack::send_payload` for a destination `(dstAddr,
dstPort)`.  `frameSize` is the packet buffer capacity and `packetLen` the
`as_slice().len()` of the payload buffer (headers plus application
payload).  Returns the rewritten frame and the value stored in the TX
descriptor length, or `none` when a bounds check fails or the ARP lookup
misses (the source `unwrap`s — i.e. panics — on a missing entry). -/
def sendPayload (ns : NetStackModel) (dstAddr dstPort : Nat)
    (frameSize packetLen : Nat) (b : Buf) : Option (Buf × Nat) :=
  match ns.arpTable dstAddr with
  | none => none
  | some dstMac =>
    if 0 + ethHdrSize > frameSize then none
    else
      let b := ethSetTypeIp4 (ethSetDstAddress (ethSetSrcAddress b 0 ns.ifaceMac) 0 dstMac) 0
      if ethHdrSize + ip4HdrSize > frameSize then none
      else
        let b := ip4WithDefaults b ethHdrSize
        let b := ip4SetTotalLength b ethHdrSize ((packetLen - ethHdrSize) % 2 ^ 16)
        let b := ip4SetProtoUdp b ethHdrSize
        let b := ip4SetSrcAddress b ethHdrSize ns.bindAddress
        let b := ip4SetDstAddress b ethHdrSize dstAddr
        let b := ip4CalcChecksum b ethHdrSize
        if ethHdrSize + ip4HdrSize + udpHdrSize > frameSize then none
        else
          let b := udpWithDefaults b (ethHdrSize + ip4HdrSize)
          let b := udpSetSrcPort b (ethHdrSize + ip4HdrSize) ns.bindPort
          let b := udpSetDstPort b (ethHdrSize + ip4HdrSize) dstPort
          let b := udpSetLength b (ethHdrSize + ip4HdrSize)
            ((packetLen - ethHdrSize - ip4HdrSize) % 2 ^ 16)
          some (b, packetLen % 2 ^ 32)

/-! ### ARP receive path (`src/net/input.rs`, `src/net/output.rs`)

`send_arp_reply` builds the reply through the typed header setters; the
model records the field values it writes.  `next_tx_slot` success is an
environment input (`txSlotAvailable`).
-/

/-- The fields of a received ARP frame used by the receive path: the
Ethernet source MAC and the `ArpHdr` fields. -/
structure ArpPacketIn where
  ethSrc : List Nat
  ethDst : List Nat
  opcode : Nat
  senderHwAddr : List Nat
  senderProtoAddr : List Nat
  targetHwAddr : List Nat
  targetProtoAddr : List Nat
deriving DecidableEq

/-- An ARP reply frame as synthesized by `Net::send_arp_reply` (field view
of the headers written into the TX frame). -/
structure ArpReply where
  ethDst : List Nat
  ethSrc : List Nat
  ethType : Nat
  hwType : Nat
  protoType : Nat
  hwAddrLen : Nat
  protoAddrLen : Nat
  opcode : Nat
  senderHwAddr : List Nat
  senderProtoAddr : List Nat
  targetHwAddr : List Nat
  targetProtoAddr : List Nat
deriving DecidableEq

/-- Model of `u32::from_be_bytes` on a 4-byte protocol address. -/
def u32FromBeBytes (l : List Nat) : Nat :=
  l.getD 0 0 * 2 ^ 24 + l.getD 1 0 * 2 ^ 16 + l.getD 2 0 * 2 ^ 8 + l.getD 3 0

/-- The ARP cache: IPv4 address (as a `u32` host value) to MAC. -/
abbrev ArpCache := Nat → Option (List Nat)

/-- Model of `HashMap::insert` on the ARP cache. -/
def cacheInsert (cache : ArpCache) (key : Nat) (mac : List Nat) : ArpCache :=
  fun k => if k = key then some mac else cache k

/-- Model of `Net::update_arp_cache_from_arp`: inserts a mapping from the
ARP header sender protocol address to the Ethernet header source MAC
(`packet.eth_hdr.src_address`, not the ARP sender hardware address). -/
def updateArpCacheFromArp (cache : ArpCache) (p : ArpPacketIn) : ArpCache :=
  cacheInsert cache (u32FromBeBytes p.senderProtoAddr) p.ethSrc

/-- Model of `Net::send_arp_reply`: Ethernet destination is the received
frame Ethernet source; `arp_reply_ip` fills the fixed ARP fields with
opcode REPLY; sender is `(iface_mac, rx.target_proto_addr)` and target is
`(rx.sender_hw_addr, rx.sender_proto_addr)`. -/
def sendArpReply (ifaceMac : List Nat) (p : ArpPacketIn) (txSlotAvailable : Bool) :
    Option ArpReply :=
  if txSlotAvailable then
    some { ethDst := p.ethSrc
           ethSrc := ifaceMac
           ethType := 0x0806
           hwType := 1
           protoType := 0x0800
           hwAddrLen := 6
           protoAddrLen := 4
           opcode := 2
           senderHwAddr := ifaceMac
           senderProtoAddr := p.targetProtoAddr
           targetHwAddr := p.senderHwAddr
           targetProtoAddr := p.senderProtoAddr }
  else none

/-- Model of `Net::rx_arp_packet`: updates the ARP cache from the packet,
then transmits the reply.  The returned list holds every frame transmitted
by the call. -/
def rxArpPacket (ifaceMac : List Nat) (cache : ArpCache) (p : ArpPacketIn)
    (txSlotAvailable : Bool) : Option (ArpCache × List ArpReply) :=
  let cache1 := updateArpCacheFromArp cache p
  match sendArpReply ifaceMac p txSlotAvailable with
  | none => none
  | some r => some (cache1, [r])

/-! ### RX IPv4/UDP payload extraction (`src/net/input.rs`,
`src/net/packet_buf.rs`)

The cursor arithmetic is `usize`; in a release build both the subtraction
`udp.len - 8` and the bounds-check addition `packet_offset + n` wrap
modulo `2^64` (a debug build would panic on the underflow instead).
-/

/-- Outcome of the RX parse path for one descriptor. -/
inductive RxOutcome where
  | payload (start len : Nat)
  | ignored
  | notEnoughBytes
deriving DecidableEq

/-- Model of `Net::do_rx_packet` composed with `rx_ip4_packet` down to the
`l4_payload` extraction: the sequence of `get_bytes_mut` bounds checks
against `desc.len()` and the final slice request of `udp.len - 8` bytes.
Non-IPv4 ethertypes and non-UDP protocols leave the function without a
payload (`ignored`; the ARP branch is modelled separately by
`rxArpPacket`). -/
def rxPacketPayload (b : Buf) (descLen : Nat) : RxOutcome :=
  if wrap64 (0 + ethHdrSize) > descLen then .notEnoughBytes
  else if read16be b 12 = 0x0800 then
    if wrap64 (ethHdrSize + ip4HdrSize) > descLen then .notEnoughBytes
    else if b 23 ≠ 17 then .ignored
    else
      if wrap64 (ethHdrSize + ip4HdrSize + udpHdrSize) > descLen then .notEnoughBytes
      else
        let len := read16be b 38
        let n := sub64 len udpHdrSize
        if wrap64 (ethHdrSize + ip4HdrSize + udpHdrSize + n) > descLen then .notEnoughBytes
        else .payload (ethHdrSize + ip4HdrSize + udpHdrSize) n
  else .ignored

/-- A received frame whose UDP length field is zero: valid Ethernet
(ethertype IPv4 at bytes 12–13) and IPv4 (protocol 17 at byte 23) framing,
all other bytes zero, so `udp.len = 0`. -/
def udpLenZeroFrame : Buf :=
  fun i => if i = 12 then 8 else if i = 23 then 17 else 0

end Net

namespace Xsk

/-! ### Properties of the frame allocator free-list -/

theorem foldl_reverse_cons_eq_map (f : Nat → Nat) (l : List Nat) :
    l.reverse.foldl (fun acc i => f i :: acc) [] = l.map f := by
  induction l with
  | nil => rfl
  | cons x t ih =>
      simp only [List.reverse_cons, List.foldl_append, List.foldl_cons, List.foldl_nil, ih,
        List.map_cons]

theorem FrameAllocator.new_frameAddr (n fs : Nat) :
    (FrameAllocator.new n fs).frameAddr = (List.range n).map (· * fs) :=
  foldl_reverse_cons_eq_map (· * fs) (List.range n)

theorem head?_drop {α : Type} (l : List α) (k : Nat) : (l.drop k).head? = l.get? k := by
  induction l generalizing k with
  | nil => cases k <;> rfl
  | cons x t ih => cases k with
    | zero => rfl
    | succ k => simpa using ih k

theorem FrameAllocator.allocN_frameAddr (a : FrameAllocator) (k : Nat) :
    (a.allocN k).frameAddr = a.frameAddr.drop k := by
  induction k with
  | zero => rfl
  | succ k ih =>
      simp only [FrameAllocator.allocN, FrameAllocator.allocFrame]
      rw [ih]
      rcases h : a.frameAddr.drop k with _ | ⟨x, rest⟩
      · simp_all [List.drop_eq_nil_iff]
        omega
      · have : a.frameAddr.drop (k + 1) = rest := by
          rw [← List.drop_drop]
          simp [h, List.drop_drop]
        simp [this]

theorem FrameAllocator.nthAlloc_eq_get? (a : FrameAllocator) (k : Nat) :
    a.nthAlloc k = a.frameAddr.get? k := by
  have h := a.allocN_frameAddr k
  rw [FrameAllocator.nthAlloc, ← head?_drop, ← h]
  rcases hh : (a.allocN k).frameAddr with _ | ⟨x, rest⟩ <;>
    simp [FrameAllocator.allocFrame, hh]

/-! ### Properties of the ready-run loop -/

theorem add_mod_ne (size cur d : Nat) (hc : cur < size) (hd0 : 0 < d) (hds : d < size) :
    (cur + d) % size ≠ cur := by
  intro h
  rcases Nat.lt_or_ge (cur + d) size with hlt | hge
  · rw [Nat.mod_eq_of_lt hlt] at h
    omega
  · rw [Nat.mod_eq_sub_mod hge, Nat.mod_eq_of_lt (by omega)] at h
    omega

theorem mod_succ_shift (size cur j : Nat) :
    ((cur + 1) % size + j) % size = (cur + (j + 1)) % size := by
  rw [Nat.mod_add_mod]
  congr 1
  omega

theorem readyLoop_count_le (fuel size : Nat) (slots : Nat → Bool) (cur : Nat) :
    (readyLoop fuel size slots cur).2.2 ≤ fuel := by
  induction fuel generalizing slots cur with
  | zero => simp [readyLoop]
  | succ fuel ih =>
      by_cases h : slots cur
      · simp only [readyLoop, h, if_true]
        rcases hr : readyLoop fuel size (upd slots cur false) ((cur + 1) % size) with ⟨s, c, n⟩
        have := ih (upd slots cur false) ((cur + 1) % size)
        rw [hr] at this
        simpa using Nat.succ_le_succ this
      · simp [readyLoop, h]

theorem readyLoop_cur (fuel size : Nat) (slots : Nat → Bool) (cur : Nat) (hc : cur < size) :
    (readyLoop fuel size slots cur).2.1 =
      (cur + (readyLoop fuel size slots cur).2.2) % size := by
  induction fuel generalizing slots cur with
  | zero => simp [readyLoop, Nat.mod_eq_of_lt hc]
  | succ fuel ih =>
      by_cases h : slots cur
      · have hsz : 0 < size := Nat.lt_of_le_of_lt (Nat.zero_le _) hc
        have hc1 : (cur + 1) % size < size := Nat.mod_lt _ hsz
        have hrec := ih (upd slots cur false) ((cur + 1) % size) hc1
        simp only [readyLoop, h, if_true]
        rcases hr : readyLoop fuel size (upd slots cur false) ((cur + 1) % size) with ⟨s, c, n⟩
        rw [hr] at hrec
        simp only at hrec ⊢
        rw [hrec, mod_succ_shift]
      · simp [readyLoop, h, Nat.mod_eq_of_lt hc]

theorem readyLoop_reads (fuel size : Nat) (slots : Nat → Bool) (cur : Nat)
    (hc : cur < size) (hf : fuel ≤ size) :
    ∀ j < (readyLoop fuel size slots cur).2.2, slots ((cur + j) % size) = true := by
  induction fuel generalizing slots cur with
  | zero => simp [readyLoop]
  | succ fuel ih =>
      by_cases h : slots cur
      · have hsz : 0 < size := Nat.lt_of_le_of_lt (Nat.zero_le _) hc
        have hc1 : (cur + 1) % size < size := Nat.mod_lt _ hsz
        have hrec := ih (upd slots cur false) ((cur + 1) % size) hc1 (by omega)
        simp only [readyLoop, h, if_true]
        rcases hr : readyLoop fuel size (upd slots cur false) ((cur + 1) % size) with ⟨s, c, n⟩
        have hcle := readyLoop_count_le fuel size (upd slots cur false) ((cur + 1) % size)
        rw [hr] at hrec hcle
        simp only at hrec hcle ⊢
        intro j hj
        match j with
        | 0 => simpa [Nat.mod_eq_of_lt hc] using h
        | j + 1 =>
            have hj' : j < n := by omega
            have := hrec j hj'
            rw [mod_succ_shift] at this
            have hne : (cur + (j + 1)) % size ≠ cur :=
              add_mod_ne size cur (j + 1) hc (by omega) (by omega)
            simpa [upd, hne] using this
      · simp [readyLoop, h]

theorem readyLoop_break (fuel size : Nat) (slots : Nat → Bool) (cur : Nat)
    (hc : cur < size) (hf : fuel ≤ size)
    (hn : (readyLoop fuel size slots cur).2.2 < fuel) :
    slots ((cur + (readyLoop fuel size slots cur).2.2) % size) = false := by
  induction fuel generalizing slots cur with
  | zero => omega
  | succ fuel ih =>
      by_cases h : slots cur
      · have hsz : 0 < size := Nat.lt_of_le_of_lt (Nat.zero_le _) hc
        have hc1 : (cur + 1) % size < size := Nat.mod_lt _ hsz
        simp only [readyLoop, h, if_true] at hn ⊢
        rcases hr : readyLoop fuel size (upd slots cur false) ((cur + 1) % size) with ⟨s, c, n⟩
        rw [hr] at hn
        simp only at hn ⊢
        have hrec := ih (upd slots cur false) ((cur + 1) % size) hc1 (by omega)
        rw [hr] at hrec
        simp only at hrec
        have := hrec (by omega)
        rw [mod_succ_shift] at this
        have hne : (cur + (n + 1)) % size ≠ cur :=
          add_mod_ne size cur (n + 1) hc (by omega) (by omega)
        simpa [upd, hne] using this
      · simpa [readyLoop, h, Nat.mod_eq_of_lt hc] using h

theorem readyLoop_mono_false (fuel size : Nat) (slots : Nat → Bool) (cur p : Nat)
    (hp : slots p = false) :
    (readyLoop fuel size slots cur).1 p = false := by
  induction fuel generalizing slots cur with
  | zero => simpa [readyLoop] using hp
  | succ fuel ih =>
      by_cases h : slots cur
      · simp only [readyLoop, h, if_true]
        rcases hr : readyLoop fuel size (upd slots cur false) ((cur + 1) % size) with ⟨s, c, n⟩
        have hrec := ih (upd slots cur false) ((cur + 1) % size)
          (by by_cases hpc : p = cur <;> simp [upd, hpc, hp])
        rw [hr] at hrec
        simpa using hrec
      · simpa [readyLoop, h] using hp

theorem readyLoop_cleared (fuel size : Nat) (slots : Nat → Bool) (cur : Nat)
    (hc : cur < size) :
    ∀ j < (readyLoop fuel size slots cur).2.2,
      (readyLoop fuel size slots cur).1 ((cur + j) % size) = false := by
  induction fuel generalizing slots cur with
  | zero => simp [readyLoop]
  | succ fuel ih =>
      by_cases h : slots cur
      · have hsz : 0 < size := Nat.lt_of_le_of_lt (Nat.zero_le _) hc
        have hc1 : (cur + 1) % size < size := Nat.mod_lt _ hsz
        simp only [readyLoop, h, if_true]
        rcases hr : readyLoop fuel size (upd slots cur false) ((cur + 1) % size) with ⟨s, c, n⟩
        have hrec := ih (upd slots cur false) ((cur + 1) % size) hc1
        rw [hr] at hrec
        simp only at hrec ⊢
        intro j hj
        match j with
        | 0 =>
            have : (upd slots cur false) cur = false := by simp [upd]
            have hmono := readyLoop_mono_false fuel size (upd slots cur false)
              ((cur + 1) % size) cur this
            rw [hr] at hmono
            simpa [Nat.mod_eq_of_lt hc] using hmono
        | j + 1 =>
            have := hrec j (by omega)
            rwa [mod_succ_shift] at this
      · simp [readyLoop, h]

theorem readyLoop_untouched (fuel size : Nat) (slots : Nat → Bool) (cur : Nat)
    (hc : cur < size) :
    ∀ p, (∀ j < (readyLoop fuel size slots cur).2.2, p ≠ (cur + j) % size) →
      (readyLoop fuel size slots cur).1 p = slots p := by
  induction fuel generalizing slots cur with
  | zero => simp [readyLoop]
  | succ fuel ih =>
      by_cases h : slots cur
      · have hsz : 0 < size := Nat.lt_of_le_of_lt (Nat.zero_le _) hc
        have hc1 : (cur + 1) % size < size := Nat.mod_lt _ hsz
        simp only [readyLoop, h, if_true]
        rcases hr : readyLoop fuel size (upd slots cur false) ((cur + 1) % size) with ⟨s, c, n⟩
        have hrec := ih (upd slots cur false) ((cur + 1) % size) hc1
        rw [hr] at hrec
        simp only at hrec ⊢
        intro p hp
        have hp0 : p ≠ cur := by
          have := hp 0 (by omega)
          simpa [Nat.mod_eq_of_lt hc] using this
        have hrest : ∀ j < n, p ≠ ((cur + 1) % size + j) % size := by
          intro j hj
          rw [mod_succ_shift]
          exact hp (j + 1) (by omega)
        have := hrec p hrest
        simpa [upd, hp0] using this
      · simp [readyLoop, h]

/-! ### Ring index arithmetic

The ghost variables `P`, `C`, … below are the unwrapped (monotone)
counters; the ring fields hold their `u32` truncations.  When the
difference of two counters is known to be below `2^32`, wrapping
subtraction of the truncations recovers it exactly.
-/

theorem sub32_eq (a b : Nat) (hba : b ≤ a) (hlt : a - b < 2 ^ 32) :
    sub32 (a % 2 ^ 32) (b % 2 ^ 32) = a - b := by
  unfold sub32
  omega

/-- Behaviour of `xsk_prod_nb_free` under the ring invariant, phrased with
unwrapped counters: `C` is the kernel consumer, `P` the user cached
producer, and `Cold ≤ C` the consumer value from which `cached_cons` was
last computed. -/
theorem xskProdNbFree_spec (r : XskRingProd) (nb : Nat) (P C Cold : Nat)
    (hsz : r.size < 2 ^ 32)
    (hcp : r.cachedProd = P % 2 ^ 32)
    (hcons : r.consumer = C % 2 ^ 32)
    (hcc : r.cachedCons = (Cold + r.size) % 2 ^ 32)
    (hColdC : Cold ≤ C)
    (hCP : C ≤ P)
    (hPbound : P ≤ Cold + r.size) :
    ((xskProdNbFree r nb).1 = Cold + r.size - P ∧ (xskProdNbFree r nb).2 = r ∨
      (xskProdNbFree r nb).1 = C + r.size - P ∧
        (xskProdNbFree r nb).2 = { r with cachedCons := (C + r.size) % 2 ^ 32 }) ∧
    (xskProdNbFree r nb).1 ≤ C + r.size - P ∧
    (xskProdNbFree r nb).2.cachedProd = r.cachedProd ∧
    (xskProdNbFree r nb).2.consumer = r.consumer ∧
    (xskProdNbFree r nb).2.size = r.size := by
  have hstale : sub32 r.cachedCons r.cachedProd = Cold + r.size - P := by
    rw [hcc, hcp]
    exact sub32_eq _ _ hPbound (by omega)
  have hfreshcc : wrap32 (r.consumer + r.size) = (C + r.size) % 2 ^ 32 := by
    rw [hcons]
    unfold wrap32
    omega
  have hfresh : sub32 ((C + r.size) % 2 ^ 32) r.cachedProd = C + r.size - P := by
    rw [hcp]
    exact sub32_eq _ _ (by omega) (by omega)
  unfold xskProdNbFree
  by_cases h : nb ≤ sub32 r.cachedCons r.cachedProd
  · simp only [h, if_pos]
    exact ⟨Or.inl ⟨hstale, by simp⟩, by rw [hstale]; omega, by simp, by simp, by simp⟩
  · simp only [h, if_neg, if_false]
    rw [hfreshcc]
    exact ⟨Or.inr ⟨hfresh, by simp⟩, by rw [hfresh], by simp, by simp, by simp⟩

/-- Behaviour of `xsk_ring_prod__reserve` under the ring invariant. -/
theorem xskRingProdReserve_spec (r : XskRingProd) (n idx0 : Nat) (P C Cold : Nat)
    (hsz : r.size < 2 ^ 32)
    (hcp : r.cachedProd = P % 2 ^ 32)
    (hcons : r.consumer = C % 2 ^ 32)
    (hcc : r.cachedCons = (Cold + r.size) % 2 ^ 32)
    (hColdC : Cold ≤ C)
    (hCP : C ≤ P)
    (hPbound : P ≤ Cold + r.size) :
    ((xskRingProdReserve r n idx0).1 = n ∨
      ((xskRingProdReserve r n idx0).1 = 0 ∧
        (xskRingProdReserve r n idx0).2.2.cachedProd = r.cachedProd ∧
        (xskRingProdReserve r n idx0).2.1 = idx0)) ∧
    ((xskRingProdReserve r n idx0).1 = n →
      n ≤ C + r.size - P ∧
      (xskRingProdReserve r n idx0).2.1 = P % 2 ^ 32 ∧
      (xskRingProdReserve r n idx0).2.2.cachedProd = (P + n) % 2 ^ 32 ∧
      P + n ≤ C + r.size) := by
  have hspec := xskProdNbFree_spec r n P C Cold hsz hcp hcons hcc hColdC hCP hPbound
  unfold xskRingProdReserve
  rcases hF : xskProdNbFree r n with ⟨free, r1⟩
  rw [hF] at hspec
  simp only at hspec
  obtain ⟨hcase, hle, hcp1, -, -⟩ := hspec
  have hr1cp : r1.cachedProd = P % 2 ^ 32 := by rw [hcp1, hcp]
  by_cases hfn : free < n
  · simp only [hfn, if_pos]
    constructor
    · exact Or.inr ⟨by trivial, hcp1, by trivial⟩
    · intro h0
      omega
  · simp only [hfn, if_neg, if_false]
    refine ⟨Or.inl (by trivial), fun _ => ⟨by omega, hr1cp, ?_, by omega⟩⟩
    simp only [hr1cp]
    unfold wrap32
    omega

/-- Behaviour of `xsk_cons_nb_avail` under the ring invariant: `Pold` is
the producer value cached in `cached_prod`, `P` the current shared
producer, `C` the cached consumer. -/
theorem xskConsNbAvail_spec (r : XskRingCons) (nb : Nat) (P Pold C : Nat)
    (hcp : r.cachedProd = Pold % 2 ^ 32)
    (hprod : r.producer = P % 2 ^ 32)
    (hcc : r.cachedCons = C % 2 ^ 32)
    (hCPold : C ≤ Pold)
    (hPoldP : Pold ≤ P)
    (hspan : P - C < 2 ^ 32) :
    (xskConsNbAvail r nb).1 = min (if Pold - C = 0 then P - C else Pold - C) nb ∧
    (xskConsNbAvail r nb).2.cachedCons = r.cachedCons := by
  have hstale : sub32 r.cachedProd r.cachedCons = Pold - C := by
    rw [hcp, hcc]
    exact sub32_eq _ _ hCPold (by omega)
  have hfresh : sub32 r.producer r.cachedCons = P - C := by
    rw [hprod, hcc]
    exact sub32_eq _ _ (by omega) hspan
  unfold xskConsNbAvail
  rw [hstale]
  by_cases h0 : Pold - C = 0
  · simp only [h0, if_pos, hfresh]
    by_cases hnb : nb < P - C
    · simp only [hnb, if_pos]
      exact ⟨by omega, by trivial⟩
    · simp only [hnb, if_neg, if_false]
      exact ⟨by omega, by trivial⟩
  · simp only [h0, if_neg, if_false]
    by_cases hnb : nb < Pold - C
    · simp only [hnb, if_pos]
      exact ⟨by omega, by trivial⟩
    · simp only [hnb, if_neg, if_false]
      exact ⟨by omega, by trivial⟩

/-- Behaviour of `xsk_ring_cons__peek` under the ring invariant; `Cs` is
the shared (released) consumer index, which trails the cached one. -/
theorem xskRingConsPeek_spec (r : XskRingCons) (nb idx0 : Nat) (P Pold C Cs : Nat)
    (hcp : r.cachedProd = Pold % 2 ^ 32)
    (hprod : r.producer = P % 2 ^ 32)
    (hcc : r.cachedCons = C % 2 ^ 32)
    (hCPold : C ≤ Pold)
    (hPoldP : Pold ≤ P)
    (hspan : P - C < 2 ^ 32)
    (hCsC : Cs ≤ C) :
    (xskRingConsPeek r nb idx0).1 = min (if Pold - C = 0 then P - C else Pold - C) nb ∧
    (xskRingConsPeek r nb idx0).1 ≤ P - Cs ∧
    (0 < (xskRingConsPeek r nb idx0).1 →
      (xskRingConsPeek r nb idx0).2.1 = C % 2 ^ 32 ∧
      (xskRingConsPeek r nb idx0).2.2.cachedCons =
        (C + (xskRingConsPeek r nb idx0).1) % 2 ^ 32) := by
  have hspec := xskConsNbAvail_spec r nb P Pold C hcp hprod hcc hCPold hPoldP hspan
  unfold xskRingConsPeek
  rcases hF : xskConsNbAvail r nb with ⟨entries, r1⟩
  rw [hF] at hspec
  simp only at hspec
  obtain ⟨hent, hcc1⟩ := hspec
  have hccC : r1.cachedCons = C % 2 ^ 32 := by rw [hcc1, hcc]
  have havail : (if Pold - C = 0 then P - C else Pold - C) ≤ P - C := by
    split <;> omega
  by_cases hpos : 0 < entries
  · simp only [hpos, if_pos]
    refine ⟨hent, ?_, fun _ => ⟨hccC, ?_⟩⟩
    · omega
    · simp only [hccC]
      unfold wrap32
      omega
  · simp only [hpos, if_neg, if_false]
    exact ⟨hent, by omega, fun h => h.elim⟩

/-- C2: on a producer ring with 32-bit wrapping indices, `reserve(n, idx)`
returns `n` or `0`; it returns `n` only when `n` free slots exist after at
most one refresh of the cached consumer index (the unwrapped free count is
`C + size - P`), on success it sets `idx` to the first reserved slot
(`cached_prod`) and the reservation never takes the producer more than
`size` entries past the kernel consumer (`P + n ≤ C + size`), so no
unreleased slot can be overwritten; on failure `idx` and `cached_prod` are
untouched.  Dually, on a consumer ring `peek(n, idx)` returns
`min(available, n)` where `available = cached_prod - cached_cons` is
refreshed from the shared producer only when zero, and peek never returns
more than `producer - consumer` (`Q - Ds`). -/
theorem claim_C2_ring_invariants
    (p : XskRingProd) (n idx0 P C Cold : Nat)
    (hsz : p.size < 2 ^ 32)
    (hcp : p.cachedProd = P % 2 ^ 32)
    (hcons : p.consumer = C % 2 ^ 32)
    (hcc : p.cachedCons = (Cold + p.size) % 2 ^ 32)
    (hColdC : Cold ≤ C) (hCP : C ≤ P) (hPbound : P ≤ Cold + p.size)
    (c : XskRingCons) (m jdx0 Q Qold D Ds : Nat)
    (hqp : c.cachedProd = Qold % 2 ^ 32)
    (hqprod : c.producer = Q % 2 ^ 32)
    (hqcc : c.cachedCons = D % 2 ^ 32)
    (hDQold : D ≤ Qold) (hQoldQ : Qold ≤ Q) (hqspan : Q - D < 2 ^ 32)
    (hDsD : Ds ≤ D) :
    (((xskRingProdReserve p n idx0).1 = n ∨
        ((xskRingProdReserve p n idx0).1 = 0 ∧
          (xskRingProdReserve p n idx0).2.2.cachedProd = p.cachedProd ∧
          (xskRingProdReserve p n idx0).2.1 = idx0)) ∧
      ((xskRingProdReserve p n idx0).1 = n →
        n ≤ C + p.size - P ∧
        (xskRingProdReserve p n idx0).2.1 = P % 2 ^ 32 ∧
        (xskRingProdReserve p n idx0).2.2.cachedProd = (P + n) % 2 ^ 32 ∧
        P + n ≤ C + p.size)) ∧
    ((xskRingConsPeek c m jdx0).1 = min (if Qold - D = 0 then Q - D else Qold - D) m ∧
      (xskRingConsPeek c m jdx0).1 ≤ Q - Ds ∧
      (0 < (xskRingConsPeek c m jdx0).1 →
        (xskRingConsPeek c m jdx0).2.1 = D % 2 ^ 32 ∧
        (xskRingConsPeek c m jdx0).2.2.cachedCons =
          (D + (xskRingConsPeek c m jdx0).1) % 2 ^ 32)) :=
  ⟨xskRingProdReserve_spec p n idx0 P C Cold hsz hcp hcons hcc hColdC hCP hPbound,
    xskRingConsPeek_spec c m jdx0 Q Qold D Ds hqp hqprod hqcc hDQold hQoldQ hqspan hDsD⟩

/-- Witness for C2 at a concrete producer ring (size 4, all free, reserve
2) and consumer ring (size 4, two entries available, peek 2). -/
theorem claim_C2_ring_invariants_witness :
    (((xskRingProdReserve ⟨4, 0, 0, 0, 4, 0⟩ 2 0).1 = 2 ∨
        ((xskRingProdReserve ⟨4, 0, 0, 0, 4, 0⟩ 2 0).1 = 0 ∧
          (xskRingProdReserve ⟨4, 0, 0, 0, 4, 0⟩ 2 0).2.2.cachedProd =
            (⟨4, 0, 0, 0, 4, 0⟩ : XskRingProd).cachedProd ∧
          (xskRingProdReserve ⟨4, 0, 0, 0, 4, 0⟩ 2 0).2.1 = 0)) ∧
      ((xskRingProdReserve ⟨4, 0, 0, 0, 4, 0⟩ 2 0).1 = 2 →
        2 ≤ 0 + (⟨4, 0, 0, 0, 4, 0⟩ : XskRingProd).size - 0 ∧
        (xskRingProdReserve ⟨4, 0, 0, 0, 4, 0⟩ 2 0).2.1 = 0 % 2 ^ 32 ∧
        (xskRingProdReserve ⟨4, 0, 0, 0, 4, 0⟩ 2 0).2.2.cachedProd = (0 + 2) % 2 ^ 32 ∧
        0 + 2 ≤ 0 + (⟨4, 0, 0, 0, 4, 0⟩ : XskRingProd).size)) ∧
    ((xskRingConsPeek ⟨4, 3, 0, 3, 1, 0⟩ 2 0).1 =
        min (if 3 - 1 = 0 then 3 - 1 else 3 - 1) 2 ∧
      (xskRingConsPeek ⟨4, 3, 0, 3, 1, 0⟩ 2 0).1 ≤ 3 - 0 ∧
      (0 < (xskRingConsPeek ⟨4, 3, 0, 3, 1, 0⟩ 2 0).1 →
        (xskRingConsPeek ⟨4, 3, 0, 3, 1, 0⟩ 2 0).2.1 = 1 % 2 ^ 32 ∧
        (xskRingConsPeek ⟨4, 3, 0, 3, 1, 0⟩ 2 0).2.2.cachedCons =
          (1 + (xskRingConsPeek ⟨4, 3, 0, 3, 1, 0⟩ 2 0).1) % 2 ^ 32)) :=
  claim_C2_ring_invariants ⟨4, 0, 0, 0, 4, 0⟩ 2 0 0 0 0 (by norm_num) (by norm_num)
    (by norm_num) (by norm_num) (by norm_num) (by norm_num) (by norm_num)
    ⟨4, 3, 0, 3, 1, 0⟩ 2 0 3 3 1 0 (by norm_num) (by norm_num) (by norm_num)
    (by norm_num) (by norm_num) (by norm_num) (by norm_num)

/-- C1: `TxSocket::tx` submits frames to the kernel in ring-index order:
marking `desc.index` ready, it submits exactly the run of consecutive
ready slots starting at `current_tx_slot` (each counted slot is cleared,
the cursor advances by the run length modulo `tx_size`, and the TX
producer advances by exactly the run length); in particular, completing
ring slots 0,1,2 in the order 1,0,2 advances the producer by 0, then 2,
then 1, so the kernel observes the slots in index order 0,1,2. -/
theorem claim_C1_tx_in_order (s : TxState) (i : Nat) (cfgW ringW : Bool)
    (hcur : s.currentTxSlot < s.txSize) :
    (txCall s i cfgW ringW).submitted ≤ s.txSize ∧
    (∀ j < (txCall s i cfgW ringW).submitted,
      upd s.ready i true ((s.currentTxSlot + j) % s.txSize) = true) ∧
    ((txCall s i cfgW ringW).submitted < s.txSize →
      upd s.ready i true
        ((s.currentTxSlot + (txCall s i cfgW ringW).submitted) % s.txSize) = false) ∧
    (txCall s i cfgW ringW).state.producer = s.producer + (txCall s i cfgW ringW).submitted ∧
    (txCall s i cfgW ringW).state.currentTxSlot =
      (s.currentTxSlot + (txCall s i cfgW ringW).submitted) % s.txSize ∧
    (∀ j < (txCall s i cfgW ringW).submitted,
      (txCall s i cfgW ringW).state.ready ((s.currentTxSlot + j) % s.txSize) = false) ∧
    (∀ p, (∀ j < (txCall s i cfgW ringW).submitted,
        p ≠ (s.currentTxSlot + j) % s.txSize) →
      (txCall s i cfgW ringW).state.ready p = upd s.ready i true p) ∧
    ((txCall ⟨4, fun _ => false, 0, 0⟩ 1 false false).submitted = 0 ∧
      (txCall ⟨4, fun _ => false, 0, 0⟩ 1 false false).state.producer = 0 ∧
      (txCall (txCall ⟨4, fun _ => false, 0, 0⟩ 1 false false).state 0 false false).submitted
          = 2 ∧
      (txCall (txCall ⟨4, fun _ => false, 0, 0⟩ 1 false false).state 0
          false false).state.producer = 2 ∧
      (txCall (txCall (txCall ⟨4, fun _ => false, 0, 0⟩ 1 false false).state 0
          false false).state 2 false false).submitted = 1 ∧
      (txCall (txCall (txCall ⟨4, fun _ => false, 0, 0⟩ 1 false false).state 0
          false false).state 2 false false).state.producer = 3) := by
  have hsz : 0 < s.txSize := Nat.lt_of_le_of_lt (Nat.zero_le _) hcur
  have hcle := readyLoop_count_le s.txSize s.txSize (upd s.ready i true) s.currentTxSlot
  have hcur' := readyLoop_cur s.txSize s.txSize (upd s.ready i true) s.currentTxSlot hcur
  have hreads := readyLoop_reads s.txSize s.txSize (upd s.ready i true) s.currentTxSlot
    hcur (le_refl _)
  have hclear := readyLoop_cleared s.txSize s.txSize (upd s.ready i true) s.currentTxSlot hcur
  have huntouched := readyLoop_untouched s.txSize s.txSize (upd s.ready i true)
    s.currentTxSlot hcur
  have hbreak := fun hlt => readyLoop_break s.txSize s.txSize (upd s.ready i true)
    s.currentTxSlot hcur (le_refl _) hlt
  rcases hL : readyLoop s.txSize s.txSize (upd s.ready i true) s.currentTxSlot
    with ⟨slots, cur, n⟩
  rw [hL] at hcle hcur' hreads hclear huntouched hbreak
  simp only at hcle hcur' hreads hclear huntouched hbreak
  simp only [txCall, readyForTxSlotCounts, hL]
  by_cases hn : n = 0
  · subst hn
    rw [if_pos (rfl : (0 : Nat) = 0)]
    dsimp only
    refine ⟨by omega, by omega, fun hlt => hbreak (by omega), by omega, hcur', by omega,
      fun p _ => huntouched p (by omega), ?_⟩
    decide
  · rw [if_neg hn]
    dsimp only
    refine ⟨hcle, hreads, fun hlt => hbreak (by omega), rfl, hcur', hclear,
      fun p hp => huntouched p hp, ?_⟩
    decide

/-- Witness for C1: a TX ring of size 4 whose cursor is at slot 0 with
slots 0 and 1 already marked ready; completing slot 0 submits the run. -/
theorem claim_C1_tx_in_order_witness :
    0 < 4 ∧
    (txCall ⟨4, fun j => j = 1, 0, 0⟩ 0 false false).submitted ≤ 4 :=
  ⟨by norm_num,
    (claim_C1_tx_in_order ⟨4, fun j => decide (j = 1), 0, 0⟩ 0 false false (by norm_num)).1⟩

/-- C3 counterexample: a `tx` call whose ready-run is empty (`desc.index`
is not the cursor slot) returns before reaching the wakeup logic, so
`sendto()` is not invoked even with wakeup mode disabled, and not invoked
with wakeup mode enabled and the ring flag set either. -/
theorem claim_C3_counterexample :
    (txCall ⟨4, fun _ => false, 0, 0⟩ 1 false false).sendtoCalled = false ∧
    (txCall ⟨4, fun _ => false, 0, 0⟩ 1 true true).sendtoCalled = false := by
  decide

/-- C3 (amended): on a `TxSocket::tx` call that submits at least one frame,
`sendto()` is invoked iff the needs-wakeup gate allows it (ring flag set
when wakeup mode is enabled; unconditionally when disabled); on a call that
submits nothing, `sendto()` is never invoked. -/
theorem claim_C3_needs_wakeup_gating (s : TxState) (i : Nat) (cfgW ringW : Bool) :
    (txCall s i cfgW ringW).sendtoCalled =
      if (txCall s i cfgW ringW).submitted = 0 then false
      else if cfgW then ringW else true := by
  rcases hL : readyLoop s.txSize s.txSize (upd s.ready i true) s.currentTxSlot
    with ⟨slots, cur, n⟩
  simp only [txCall, readyForTxSlotCounts, hL]
  by_cases hn : n = 0
  · subst hn
    rw [if_pos (rfl : (0 : Nat) = 0)]
    dsimp only
    rw [if_pos (rfl : (0 : Nat) = 0)]
  · rw [if_neg hn]
    dsimp only
    rw [if_neg hn]

/-- C7 counterexample: an ARP packet whose Ethernet source MAC differs from
its ARP sender hardware address; after processing, the cache maps the
sender protocol address to the Ethernet source MAC, not to the sender
hardware address as the claim states. -/
theorem claim_C7_counterexample :
    Net.updateArpCacheFromArp (fun _ => none)
        ⟨[2, 2, 2, 2, 2, 2], [255, 255, 255, 255, 255, 255], 1, [9, 9, 9, 9, 9, 9],
          [10, 0, 0, 1], [0, 0, 0, 0, 0, 0], [10, 0, 0, 2]⟩
        (Net.u32FromBeBytes [10, 0, 0, 1]) = some [2, 2, 2, 2, 2, 2] ∧
    ([2, 2, 2, 2, 2, 2] : List Nat) ≠ [9, 9, 9, 9, 9, 9] := by
  constructor
  · rfl
  · decide

/-- C7 (amended): after processing any received ARP packet, the ARP cache
maps the ARP header sender protocol address to the ETHERNET header source
MAC of the frame (which coincides with the ARP sender hardware address only
when the two agree). -/
theorem claim_C7_arp_cache_update (cache : Net.ArpCache) (p : Net.ArpPacketIn) :
    Net.updateArpCacheFromArp cache p (Net.u32FromBeBytes p.senderProtoAddr) =
      some p.ethSrc := by
  simp [Net.updateArpCacheFromArp, Net.cacheInsert]

/-- C5 counterexample: a received ARP REQUEST targeted at the bind address
whose Ethernet source MAC `[2,…]` differs from its ARP sender hardware
address `[9,…]`; exactly one reply is transmitted, but its Ethernet
destination is the Ethernet source of the request, not the ARP SHA as the
claim states. -/
theorem claim_C5_counterexample :
    (Net.rxArpPacket [1, 1, 1, 1, 1, 1] (fun _ => none)
        ⟨[2, 2, 2, 2, 2, 2], [255, 255, 255, 255, 255, 255], 1, [9, 9, 9, 9, 9, 9],
          [10, 0, 0, 1], [0, 0, 0, 0, 0, 0], [10, 0, 0, 2]⟩ true).map
        (fun x => x.2.map (fun r => r.ethDst)) = some [[2, 2, 2, 2, 2, 2]] ∧
    ([2, 2, 2, 2, 2, 2] : List Nat) ≠ [9, 9, 9, 9, 9, 9] := by
  constructor
  · rfl
  · decide

/-- C5 (amended): for every received ARP packet whose target protocol
address equals the bind address, when a TX slot is available exactly one
ARP REPLY is transmitted, with Ethernet destination equal to the RECEIVED
FRAME Ethernet source (not necessarily the ARP SHA), Ethernet source the
interface MAC, opcode 2, sender `(iface MAC, bind address)` and target
`(SHA, SPA)`. -/
theorem claim_C5_arp_reply (ifaceMac bindAddr : List Nat) (cache : Net.ArpCache)
    (p : Net.ArpPacketIn) (htarget : p.targetProtoAddr = bindAddr) :
    Net.rxArpPacket ifaceMac cache p true =
      some (Net.updateArpCacheFromArp cache p,
        [{ ethDst := p.ethSrc
           ethSrc := ifaceMac
           ethType := 0x0806
           hwType := 1
           protoType := 0x0800
           hwAddrLen := 6
           protoAddrLen := 4
           opcode := 2
           senderHwAddr := ifaceMac
           senderProtoAddr := bindAddr
           targetHwAddr := p.senderHwAddr
           targetProtoAddr := p.senderProtoAddr }]) := by
  subst htarget
  rfl

/-- Witness for C5 at a concrete request targeted at the bind address
`[10,0,0,2]`. -/
theorem claim_C5_arp_reply_witness :
    Net.rxArpPacket [1, 1, 1, 1, 1, 1] (fun _ => none)
        ⟨[2, 2, 2, 2, 2, 2], [255, 255, 255, 255, 255, 255], 1, [9, 9, 9, 9, 9, 9],
          [10, 0, 0, 1], [0, 0, 0, 0, 0, 0], [10, 0, 0, 2]⟩ true =
      some (Net.updateArpCacheFromArp (fun _ => none)
          ⟨[2, 2, 2, 2, 2, 2], [255, 255, 255, 255, 255, 255], 1, [9, 9, 9, 9, 9, 9],
            [10, 0, 0, 1], [0, 0, 0, 0, 0, 0], [10, 0, 0, 2]⟩,
        [{ ethDst := [2, 2, 2, 2, 2, 2]
           ethSrc := [1, 1, 1, 1, 1, 1]
           ethType := 0x0806
           hwType := 1
           protoType := 0x0800
           hwAddrLen := 6
           protoAddrLen := 4
           opcode := 2
           senderHwAddr := [1, 1, 1, 1, 1, 1]
           senderProtoAddr := [10, 0, 0, 2]
           targetHwAddr := [9, 9, 9, 9, 9, 9]
           targetProtoAddr := [10, 0, 0, 1] }]) :=
  claim_C5_arp_reply [1, 1, 1, 1, 1, 1] [10, 0, 0, 2] (fun _ => none)
    ⟨[2, 2, 2, 2, 2, 2], [255, 255, 255, 255, 255, 255], 1, [9, 9, 9, 9, 9, 9],
      [10, 0, 0, 1], [0, 0, 0, 0, 0, 0], [10, 0, 0, 2]⟩ rfl

/-- C10: on a received IPv4/UDP frame of 64 bytes whose UDP length field is
0, the release-build subtraction `udp.len - 8` wraps to `2^64 - 8`, the
bounds check `packet_offset + n > buffer_len` wraps to `34 > 64` and
passes, and the extraction yields a slice extending far beyond the packet
buffer (a debug build would panic on the underflow instead), contradicting
the claimed always-in-bounds/abort behaviour. -/
theorem claim_C10_wrap_out_of_bounds :
    Net.rxPacketPayload Net.udpLenZeroFrame 64 =
      Net.RxOutcome.payload 42 (2 ^ 64 - 8) ∧
    42 + (2 ^ 64 - 8) > 64 := by
  constructor
  · rfl
  · norm_num

/-- C8: the frame pool free-list is initialised so that successive
`alloc_frame` calls return `0, frame_size, 2·frame_size, …` in ascending
order; each offset is returned at most once, and the `(n+1)`-th allocation
from a pool of `n` frames (before any frame is returned) yields `none`. -/
theorem claim_C8_frame_pool (n fs k i j : Nat) (hfs : 0 < fs) :
    (k < n → (FrameAllocator.new n fs).nthAlloc k = some (k * fs)) ∧
    (FrameAllocator.new n fs).nthAlloc n = none ∧
    (i < n → j < n → i ≠ j →
      (FrameAllocator.new n fs).nthAlloc i ≠ (FrameAllocator.new n fs).nthAlloc j) := by
  have hget : ∀ m, (FrameAllocator.new n fs).nthAlloc m =
      if m < n then some (m * fs) else none := by
    intro m
    rw [FrameAllocator.nthAlloc_eq_get?, FrameAllocator.new_frameAddr]
    by_cases hm : m < n
    · rw [if_pos hm]
      simp [List.get?_eq_getElem?, List.getElem?_map, List.getElem?_range hm]
    · rw [if_neg hm]
      have hnm : n ≤ m := by omega
      have hlen : (List.map (· * fs) (List.range n)).length ≤ m := by
        simpa using hnm
      simp [List.get?_eq_getElem?, List.getElem?_eq_none hlen]
  refine ⟨fun hk => by rw [hget k, if_pos hk], by rw [hget n, if_neg (by omega)],
    fun hi hj hij => ?_⟩
  rw [hget i, if_pos hi, hget j, if_pos hj]
  intro h
  have := Option.some.inj h
  exact hij (Nat.eq_of_mul_eq_mul_right hfs this)

/-- Witness for C8 on a pool of two 4096-byte frames. -/
theorem claim_C8_frame_pool_witness :
    (0 : Nat) < 4096 ∧
    ((1 < 2 → (FrameAllocator.new 2 4096).nthAlloc 1 = some (1 * 4096)) ∧
      (FrameAllocator.new 2 4096).nthAlloc 2 = none ∧
      (0 < 2 → 1 < 2 → 0 ≠ 1 →
        (FrameAllocator.new 2 4096).nthAlloc 0 ≠ (FrameAllocator.new 2 4096).nthAlloc 1)) :=
  ⟨by norm_num, claim_C8_frame_pool 2 4096 1 0 1 (by norm_num)⟩

/-! ### Power-of-two characterisation used by the CLI validator -/

theorem pow2_of_and_pred : ∀ v : Nat, v ≠ 0 → v &&& (v - 1) = 0 → ∃ k, v = 2 ^ k := by
  intro v
  induction v using Nat.strong_induction_on with
  | _ v ih =>
    intro hv hand
    by_cases h1 : v = 1
    · exact ⟨0, by simp [h1]⟩
    · have hv2 : 2 ≤ v := by omega
      rcases Nat.even_or_odd v with ⟨w, hw⟩ | ⟨w, hw⟩
      · have e1 : v / 2 = w := by omega
        have e2 : (v - 1) / 2 = w - 1 := by omega
        have hdiv := Nat.and_div_two (a := v) (b := v - 1)
        rw [hand, e1, e2] at hdiv
        have hw0 : w ≠ 0 := by omega
        obtain ⟨k, hk⟩ := ih w (by omega) hw0 (by omega)
        refine ⟨k + 1, ?_⟩
        rw [Nat.pow_succ]
        omega
      · exfalso
        have e2 : (v - 1) / 2 = v / 2 := by omega
        have hdiv := Nat.and_div_two (a := v) (b := v - 1)
        rw [hand, e2, Nat.and_self] at hdiv
        omega

theorem and_pred_of_pow2 (k : Nat) : 2 ^ k &&& (2 ^ k - 1) = 0 := by
  have h := Nat.and_pow_two_sub_one_eq_mod (2 ^ k) k
  rwa [Nat.mod_self] at h

/-- C9 counterexample: a configuration with interface, bind address and
bind port all present and valid (and a valid mode and power-of-two
sockets-per-queue) still fails validation when the net allocator callback
is missing, so presence of the three claimed required fields does not
suffice to pass. -/
theorem claim_C9_counterexample :
    (Configuration.validate
        ⟨some "eth0", some 1, some 4242, none, "./kern/xsk_kern.o", [0], 1, 2048, 2048,
          4096, .skb, true⟩ =
      .error (.invalidConfigWithMissingProperty "net allocator")) ∧
    (⟨some "eth0", some 1, some 4242, none, "./kern/xsk_kern.o", [0], 1, 2048, 2048,
        4096, .skb, true⟩ : Configuration).interface.isSome = true ∧
    (⟨some "eth0", some 1, some 4242, none, "./kern/xsk_kern.o", [0], 1, 2048, 2048,
        4096, .skb, true⟩ : Configuration).address.isSome = true ∧
    (⟨some "eth0", some 1, some 4242, none, "./kern/xsk_kern.o", [0], 1, 2048, 2048,
        4096, .skb, true⟩ : Configuration).port.isSome = true := by
  exact ⟨rfl, rfl, rfl, rfl⟩

/-- C9 (amended): validation fails for every configuration missing a
required field, where the required fields are the interface, bind address,
bind port AND the net allocator callback (and passes exactly when all four
are present); `XskMode::from_str` rejects every string other than `skb`,
`drv`, `drv-zc`; and the CLI sockets-per-queue validator rejects exactly
the values that are not powers of two. -/
theorem claim_C9_configuration_validation :
    (∀ c : Configuration,
      (c.validate = .ok () ↔
        c.interface.isSome ∧ c.address.isSome ∧ c.port.isSome ∧ c.netAllocator.isSome)) ∧
    (∀ s : String, s ≠ "skb" → s ≠ "drv" → s ≠ "drv-zc" →
      XskMode.fromStr s = .error .invalidXskMode) ∧
    (∀ v : Nat, (¬ ∃ k, v = 2 ^ k) → validateSocksPerQueue v = .error "not a power of 2") ∧
    (∀ v : Nat, (∃ k, v = 2 ^ k) → validateSocksPerQueue v = .ok v) := by
  refine ⟨fun c => ?_, fun s h1 h2 h3 => ?_, fun v hv => ?_, fun v hv => ?_⟩
  · rcases c with ⟨i, a, p, na, _, _, _, _, _, _, _, _⟩
    rcases i with _ | i <;> rcases a with _ | a <;> rcases p with _ | p <;>
      rcases na with _ | na <;>
      simp [Configuration.validate]
  · simp [XskMode.fromStr, h1, h2, h3]
  · rw [validateSocksPerQueue]
    rw [if_neg]
    intro ⟨hv0, hand⟩
    exact hv (pow2_of_and_pred v hv0 hand)
  · obtain ⟨k, rfl⟩ := hv
    rw [validateSocksPerQueue]
    rw [if_pos]
    exact ⟨pow_ne_zero k (by norm_num), and_pred_of_pow2 k⟩

/-- Witness for C9: a fully populated configuration passes; the string
`drv-zerocopy` (not in the accepted set) is rejected; 3 is rejected as a
non-power-of-two; 4 is accepted. -/
theorem claim_C9_configuration_validation_witness :
    Configuration.validate
        ⟨some "eth0", some 1, some 4242, some (), "./kern/xsk_kern.o", [0], 1, 2048, 2048,
          4096, .skb, true⟩ = .ok () ∧
    XskMode.fromStr "drv-zerocopy" = .error .invalidXskMode ∧
    validateSocksPerQueue 3 = .error "not a power of 2" ∧
    validateSocksPerQueue 4 = .ok 4 := by
  refine ⟨(claim_C9_configuration_validation.1 _).mpr (by simp),
    claim_C9_configuration_validation.2.1 "drv-zerocopy" (by decide) (by decide) (by decide),
    claim_C9_configuration_validation.2.2.1 3 ?_,
    claim_C9_configuration_validation.2.2.2 4 ⟨2, by norm_num⟩⟩
  rintro ⟨k, hk⟩
  rcases k with _ | _ | k
  · norm_num at hk
  · norm_num at hk
  · have h4 : 4 ≤ 2 ^ (k + 2) := by
      have h1 : 1 ≤ 2 ^ k := Nat.one_le_two_pow
      calc (4 : Nat) = 4 * 1 := by norm_num
        _ ≤ 4 * 2 ^ k := by omega
        _ = 2 ^ (k + 2) := by ring
    omega

/-- C6 counterexample: a fill queue with exactly ONE free slot (64 slots,
63 outstanding).  `reclaim_fq_bufs(socket, 1)` reserves and submits 1
because the guard is `fq.free(BATCH_SIZE) > 0`, i.e. at least one free
slot, even though the FQ has fewer than BATCH_SIZE (64) free slots. -/
theorem claim_C6_counterexample :
    reclaimFqBufs 1 ⟨⟨64, 63, 0, 63, 64, 0⟩, false⟩ 1 =
      some (⟨⟨64, 64, 0, 64, 64, 0⟩, false⟩, 0, 1) ∧
    (xskProdNbFree ⟨64, 63, 0, 63, 64, 0⟩ batchSize).1 = 1 ∧
    1 < batchSize := by
  refine ⟨rfl, rfl, by decide⟩

/-- C6 (amended): `reclaim_fq_bufs(socket, n)` with `n = 0` polls once iff
wakeup mode is enabled and the FQ needs-wakeup flag is set, then returns.
With `n > 0` it reserves and submits `n` whenever the FQ free count
computed by `fq.free(BATCH_SIZE)` — at least ONE free slot after at most
one refresh, not BATCH_SIZE of them — is positive (without polling when
the first reserve succeeds), and returns without reserving or submitting
when that free count is zero. -/
theorem claim_C6_reclaim_fq (fuel : Nat) (u : UmemState) (n : Nat) :
    (reclaimFqBufs fuel u 0 =
      some (u, if u.needsWakeupCfg && xskRingProdNeedsWakeup u.fq then 1 else 0, 0)) ∧
    (n ≠ 0 → (xskProdNbFree u.fq batchSize).1 = 0 →
      reclaimFqBufs fuel u n =
        some ({ u with fq := (xskProdNbFree u.fq batchSize).2 }, 0, 0)) ∧
    (n ≠ 0 → 0 < (xskProdNbFree u.fq batchSize).1 →
      (xskRingProdReserve (xskProdNbFree u.fq batchSize).2 n 0).1 = n →
      reclaimFqBufs fuel u n =
        some ({ u with
          fq := xskRingProdSubmit
            (xskRingProdReserve (xskProdNbFree u.fq batchSize).2 n 0).2.2 n }, 0, n)) ∧
    (n ≠ 0 → 0 < (xskProdNbFree u.fq batchSize).1 →
      ∀ u' polls subm, reclaimFqBufs fuel u n = some (u', polls, subm) → subm = n) := by
  rcases hF : xskProdNbFree u.fq batchSize with ⟨free, fq1⟩
  dsimp only
  refine ⟨?_, fun hn hfree => ?_, fun hn hfree hres => ?_, fun hn hfree u' polls subm h => ?_⟩
  · simp [reclaimFqBufs]
  · subst hfree
    rw [reclaimFqBufs, if_neg hn, hF]
    dsimp only
    rw [if_neg (by omega)]
  · rcases hR : xskRingProdReserve fq1 n 0 with ⟨ret, idx, fq2⟩
    rw [hR] at hres
    dsimp only at hres
    subst hres
    rw [reclaimFqBufs, if_neg hn, hF]
    dsimp only
    rw [if_pos hfree, fqReserveRetry, hR]
    dsimp only
    rw [if_pos rfl]
  · rw [reclaimFqBufs, if_neg hn, hF] at h
    dsimp only at h
    rw [if_pos hfree] at h
    rcases hRR : fqReserveRetry fuel u.needsWakeupCfg fq1 n 0 with _ | ⟨fq2, polls2⟩ <;>
      rw [hRR] at h
    · simp at h
    · have h3 := congrArg (fun x => x.2.2) (Option.some.inj h)
      simpa using h3.symm

/-- Witness for C6: the `n = 0` path on an idle FQ, the zero-free path, and
(via the general theorem at the counterexample state) nothing further. -/
theorem claim_C6_reclaim_fq_witness :
    (reclaimFqBufs 1 ⟨⟨64, 0, 0, 0, 64, 0⟩, false⟩ 0 =
      some (⟨⟨64, 0, 0, 0, 64, 0⟩, false⟩,
        if (⟨⟨64, 0, 0, 0, 64, 0⟩, false⟩ : UmemState).needsWakeupCfg &&
            xskRingProdNeedsWakeup (⟨⟨64, 0, 0, 0, 64, 0⟩, false⟩ : UmemState).fq
          then 1 else 0, 0)) ∧
    (reclaimFqBufs 1 ⟨⟨64, 64, 0, 64, 64, 0⟩, false⟩ 1 =
      some ({ (⟨⟨64, 64, 0, 64, 64, 0⟩, false⟩ : UmemState) with
        fq := (xskProdNbFree (⟨64, 64, 0, 64, 64, 0⟩ : XskRingProd) batchSize).2 }, 0, 0)) :=
  ⟨(claim_C6_reclaim_fq 1 ⟨⟨64, 0, 0, 0, 64, 0⟩, false⟩ 1).1,
    (claim_C6_reclaim_fq 1 ⟨⟨64, 64, 0, 64, 64, 0⟩, false⟩ 1).2.1 (by decide) (by decide)⟩

end Xsk

namespace Net

/-! ### Byte-level reading lemmas for the packet writers -/

theorem upd_apply (b : Buf) (i v j : Nat) :
    Xsk.upd b i v j = if j = i then v else b j := rfl

theorem write16be_apply (b : Buf) (off v j : Nat) :
    write16be b off v j =
      if j = off + 1 then v % 2 ^ 8
      else if j = off then v / 2 ^ 8 % 2 ^ 8
      else b j := rfl

theorem write32be_apply (b : Buf) (off v j : Nat) :
    write32be b off v j =
      if j = off + 3 then v % 2 ^ 8
      else if j = off + 2 then v / 2 ^ 8 % 2 ^ 8
      else if j = off + 1 then v / 2 ^ 16 % 2 ^ 8
      else if j = off then v / 2 ^ 24 % 2 ^ 8
      else b j := rfl

theorem writeBytes_apply (l : List Nat) (b : Buf) (off j : Nat) :
    writeBytes b off l j =
      if off ≤ j ∧ j < off + l.length then l.getD (j - off) 0 else b j := by
  induction l generalizing b off with
  | nil =>
      simp only [writeBytes, List.length_nil]
      rw [if_neg (by omega)]
  | cons v rest ih =>
      simp only [writeBytes, List.length_cons]
      rw [ih]
      by_cases h1 : j = off
      · subst h1
        rw [if_neg (by omega), if_pos (by omega)]
        simp [upd_apply]
      · by_cases h2 : off + 1 ≤ j ∧ j < off + 1 + rest.length
        · rw [if_pos h2, if_pos (by omega)]
          have hsub : j - off = (j - (off + 1)) + 1 := by omega
          rw [hsub]
          simp
        · rw [if_neg h2, if_neg (by omega)]
          simp [upd_apply, h1]

theorem read16be_write16be (b : Buf) (off v : Nat) (hv : v < 2 ^ 16) :
    read16be (write16be b off v) off = v := by
  simp only [read16be, write16be_apply]
  split_ifs <;> omega

theorem read32be_write32be (b : Buf) (off v : Nat) (hv : v < 2 ^ 32) :
    read32be (write32be b off v) off = v := by
  simp only [read32be, write32be_apply]
  split_ifs <;> omega

theorem checksumWordsGo_congr (b1 b2 : Buf) (off : Nat) :
    ∀ k, (∀ j, off ≤ j → j < off + 2 * k → b1 j = b2 j) →
      checksumWordsGo b1 off k = checksumWordsGo b2 off k := by
  intro k
  induction k generalizing off with
  | zero => intro _; rfl
  | succ k ih =>
      intro h
      simp only [checksumWordsGo]
      rw [h off (by omega) (by omega), h (off + 1) (by omega) (by omega),
        ih (off + 2) (fun j hj1 hj2 => h j (by omega) (by omega))]

/-! ### Bit-manipulation facts for the IPv4 header fields -/

theorem hdr_len_version_value (x : Nat) : (((x &&& 15) ||| 64) &&& 240) ||| 5 = 69 := by
  have h : x &&& 15 = x % 16 := by
    have h4 := Nat.and_pow_two_sub_one_eq_mod x 4
    norm_num at h4
    exact h4
  rw [h]
  have hall : ∀ a, a < 16 → (((a ||| 64) &&& 240) ||| 5) = 69 := by decide
  exact hall _ (Nat.mod_lt _ (by norm_num))

theorem and_8192_cases (x : Nat) : x &&& 8192 = 0 ∨ x &&& 8192 = 8192 := by
  have h := Nat.and_two_pow x 13
  norm_num at h
  rcases Bool.eq_false_or_eq_true (x.testBit 13) with hb | hb
  · right
    rw [hb] at h
    simpa using h
  · left
    rw [hb] at h
    simpa using h

/-! ### The checksum field of the synthesized IPv4 header -/

theorem write16be_apply_ne (b : Buf) (off v j : Nat) (h1 : j ≠ off) (h2 : j ≠ off + 1) :
    write16be b off v j = b j := by
  simp only [write16be_apply]
  rw [if_neg h2, if_neg h1]

theorem read16be_write16be_ne (b : Buf) (off v p : Nat) (h : p + 1 < off ∨ off + 1 < p) :
    read16be (write16be b off v) p = read16be b p := by
  simp only [read16be, write16be_apply]
  split_ifs <;> omega

theorem ip4CalcChecksum_read (b : Buf) :
    read16be (ip4CalcChecksum b 14) 24 =
      (2 ^ 32 - 1 - foldChecksum (checksumWordsGo (write16be b 24 0) 14 10)) % 2 ^ 16 := by
  unfold ip4CalcChecksum
  dsimp only
  norm_num
  rw [read16be_write16be]
  exact Nat.mod_lt _ (by norm_num)

/-- Reading the checksum field back through the UDP header writes, for an
arbitrary pre-checksum buffer `g`: the stored value is the complement of
the folded word sum over the final header bytes with the checksum field
zeroed. -/
theorem checksum_after_udp (g : Buf) (p2 p3 p4 : Nat) :
    read16be
      (udpSetLength (udpSetDstPort (udpSetSrcPort
        (udpWithDefaults (ip4CalcChecksum g 14) 34) 34 p2) 34 p3) 34 p4) 24 =
      (2 ^ 32 - 1 - foldChecksum (checksumWordsGo
        (write16be (udpSetLength (udpSetDstPort (udpSetSrcPort
          (udpWithDefaults (ip4CalcChecksum g 14) 34) 34 p2) 34 p3) 34 p4) 24 0)
        14 10)) % 2 ^ 16 := by
  have hwords : checksumWordsGo
      (write16be (udpSetLength (udpSetDstPort (udpSetSrcPort
        (udpWithDefaults (ip4CalcChecksum g 14) 34) 34 p2) 34 p3) 34 p4) 24 0) 14 10 =
      checksumWordsGo (write16be g 24 0) 14 10 := by
    apply checksumWordsGo_congr
    intro j hj1 hj2
    interval_cases j <;>
      simp only [udpSetLength, udpSetDstPort, udpSetSrcPort, udpWithDefaults,
        ip4CalcChecksum, write16be_apply] <;> norm_num
  rw [hwords]
  rw [udpSetLength, udpSetDstPort, udpSetSrcPort, udpWithDefaults]
  rw [read16be_write16be_ne _ _ _ _ (by omega), read16be_write16be_ne _ _ _ _ (by omega),
    read16be_write16be_ne _ _ _ _ (by omega), read16be_write16be_ne _ _ _ _ (by omega)]
  exact ip4CalcChecksum_read g

/-- C4: `NetStack::send_payload` to a destination with an ARP cache entry
synthesizes: Ethernet dst = cached MAC, src = interface MAC, ethertype
IPv4; IPv4 version 4, IHL 5, TOS 0, total length `packet_len - 14`, ID 0,
DF set, fragment offset 0, TTL 64, protocol 17, checksum = complement of
the folded one's-complement word sum over the 20 header bytes with the
checksum field zeroed, src = bind address, dst = destination address; UDP
src port = bind port, dst port = destination port, length
`packet_len - 34`, checksum 0; descriptor length = `packet_len`; all
multi-byte fields byte-addressed in network byte order. -/
theorem claim_C4_send_payload
    (ns : NetStackModel) (dstAddr dstPort frameSize packetLen : Nat) (b : Buf)
    (dstMac : List Nat)
    (harp : ns.arpTable dstAddr = some dstMac)
    (hdl : dstMac.length = 6) (hml : ns.ifaceMac.length = 6)
    (hlen : 42 ≤ packetLen) (hfs : packetLen ≤ frameSize) (hmax : packetLen ≤ 65535)
    (haddr : ns.bindAddress < 2 ^ 32) (hdaddr : dstAddr < 2 ^ 32)
    (hport : ns.bindPort < 2 ^ 16) (hdport : dstPort < 2 ^ 16) :
    ∃ out, sendPayload ns dstAddr dstPort frameSize packetLen b =
        some (out, packetLen % 2 ^ 32) ∧
      packetLen % 2 ^ 32 = packetLen ∧
      (∀ i, i < 6 → out i = dstMac.getD i 0) ∧
      (∀ i, i < 6 → out (6 + i) = ns.ifaceMac.getD i 0) ∧
      out 12 = 0x08 ∧ out 13 = 0x00 ∧
      out 14 = 0x45 ∧
      out 15 = 0 ∧
      read16be out 16 = packetLen - 14 ∧
      read16be out 18 = 0 ∧
      (read16be out 20).testBit 14 = true ∧
      read16be out 20 % 2 ^ 13 = 0 ∧
      out 22 = 64 ∧
      out 23 = 17 ∧
      read16be out 24 =
        (2 ^ 32 - 1 - foldChecksum (checksumWordsGo (write16be out 24 0) 14 10)) % 2 ^ 16 ∧
      read32be out 26 = ns.bindAddress ∧
      read32be out 30 = dstAddr ∧
      read16be out 34 = ns.bindPort ∧
      read16be out 36 = dstPort ∧
      read16be out 38 = packetLen - 34 ∧
      read16be out 40 = 0 := by
  simp only [sendPayload, harp, ethHdrSize, ip4HdrSize, udpHdrSize]
  split_ifs with h1 h2 h3
  · exact absurd h1 (by omega)
  · exact absurd h2 (by omega)
  · exact absurd h3 (by omega)
  refine ⟨_, rfl, by omega, ?_, ?_, ?_, ?_, ?_, ?_, ?_, ?_, ?_, ?_, ?_, ?_, ?_, ?_, ?_,
    ?_, ?_, ?_, ?_⟩
  · intro i hi
    interval_cases i <;>
      simp [ethSetSrcAddress, ethSetDstAddress, ethSetTypeIp4, ip4WithDefaults,
        ip4SetVersion, ip4SetHdrLen, ip4SetFlags, ip4SetFragOffset, ip4SetTotalLength,
        ip4SetProtoUdp, ip4SetSrcAddress, ip4SetDstAddress, ip4CalcChecksum,
        udpWithDefaults, udpSetSrcPort, udpSetDstPort, udpSetLength, read16be, read32be,
        upd_apply, write16be_apply, write32be_apply, writeBytes_apply, hdl, hml]
  · intro i hi
    interval_cases i <;>
      simp [ethSetSrcAddress, ethSetDstAddress, ethSetTypeIp4, ip4WithDefaults,
        ip4SetVersion, ip4SetHdrLen, ip4SetFlags, ip4SetFragOffset, ip4SetTotalLength,
        ip4SetProtoUdp, ip4SetSrcAddress, ip4SetDstAddress, ip4CalcChecksum,
        udpWithDefaults, udpSetSrcPort, udpSetDstPort, udpSetLength, read16be, read32be,
        upd_apply, write16be_apply, write32be_apply, writeBytes_apply, hdl, hml]
  · simp [ethSetSrcAddress, ethSetDstAddress, ethSetTypeIp4, ip4WithDefaults,
      ip4SetVersion, ip4SetHdrLen, ip4SetFlags, ip4SetFragOffset, ip4SetTotalLength,
      ip4SetProtoUdp, ip4SetSrcAddress, ip4SetDstAddress, ip4CalcChecksum,
      udpWithDefaults, udpSetSrcPort, udpSetDstPort, udpSetLength, read16be, read32be,
      upd_apply, write16be_apply, write32be_apply, writeBytes_apply, hdl, hml]
  · simp [ethSetSrcAddress, ethSetDstAddress, ethSetTypeIp4, ip4WithDefaults,
      ip4SetVersion, ip4SetHdrLen, ip4SetFlags, ip4SetFragOffset, ip4SetTotalLength,
      ip4SetProtoUdp, ip4SetSrcAddress, ip4SetDstAddress, ip4CalcChecksum,
      udpWithDefaults, udpSetSrcPort, udpSetDstPort, udpSetLength, read16be, read32be,
      upd_apply, write16be_apply, write32be_apply, writeBytes_apply, hdl, hml]
  · simp [ethSetSrcAddress, ethSetDstAddress, ethSetTypeIp4, ip4WithDefaults,
      ip4SetVersion, ip4SetHdrLen, ip4SetFlags, ip4SetFragOffset, ip4SetTotalLength,
      ip4SetProtoUdp, ip4SetSrcAddress, ip4SetDstAddress, ip4CalcChecksum,
      udpWithDefaults, udpSetSrcPort, udpSetDstPort, udpSetLength, read16be, read32be,
      upd_apply, write16be_apply, write32be_apply, writeBytes_apply, hdl, hml]
    exact hdr_len_version_value (b 14)
  · simp [ethSetSrcAddress, ethSetDstAddress, ethSetTypeIp4, ip4WithDefaults,
      ip4SetVersion, ip4SetHdrLen, ip4SetFlags, ip4SetFragOffset, ip4SetTotalLength,
      ip4SetProtoUdp, ip4SetSrcAddress, ip4SetDstAddress, ip4CalcChecksum,
      udpWithDefaults, udpSetSrcPort, udpSetDstPort, udpSetLength, read16be, read32be,
      upd_apply, write16be_apply, write32be_apply, writeBytes_apply, hdl, hml]
  · simp [ethSetSrcAddress, ethSetDstAddress, ethSetTypeIp4, ip4WithDefaults,
      ip4SetVersion, ip4SetHdrLen, ip4SetFlags, ip4SetFragOffset, ip4SetTotalLength,
      ip4SetProtoUdp, ip4SetSrcAddress, ip4SetDstAddress, ip4CalcChecksum,
      udpWithDefaults, udpSetSrcPort, udpSetDstPort, udpSetLength, read16be, read32be,
      upd_apply, write16be_apply, write32be_apply, writeBytes_apply, hdl, hml]
    omega
  · simp [ethSetSrcAddress, ethSetDstAddress, ethSetTypeIp4, ip4WithDefaults,
      ip4SetVersion, ip4SetHdrLen, ip4SetFlags, ip4SetFragOffset, ip4SetTotalLength,
      ip4SetProtoUdp, ip4SetSrcAddress, ip4SetDstAddress, ip4CalcChecksum,
      udpWithDefaults, udpSetSrcPort, udpSetDstPort, udpSetLength, read16be, read32be,
      upd_apply, write16be_apply, write32be_apply, writeBytes_apply, hdl, hml]
  · rcases and_8192_cases (b 20 * 256 + b 21) with h20 | h20 <;>
      simp [ethSetSrcAddress, ethSetDstAddress, ethSetTypeIp4, ip4WithDefaults,
        ip4SetVersion, ip4SetHdrLen, ip4SetFlags, ip4SetFragOffset, ip4SetTotalLength,
        ip4SetProtoUdp, ip4SetSrcAddress, ip4SetDstAddress, ip4CalcChecksum,
        udpWithDefaults, udpSetSrcPort, udpSetDstPort, udpSetLength, read16be, read32be,
        upd_apply, write16be_apply, write32be_apply, writeBytes_apply, hdl, hml, h20] <;>
      decide
  · rcases and_8192_cases (b 20 * 256 + b 21) with h20 | h20 <;>
      simp [ethSetSrcAddress, ethSetDstAddress, ethSetTypeIp4, ip4WithDefaults,
        ip4SetVersion, ip4SetHdrLen, ip4SetFlags, ip4SetFragOffset, ip4SetTotalLength,
        ip4SetProtoUdp, ip4SetSrcAddress, ip4SetDstAddress, ip4CalcChecksum,
        udpWithDefaults, udpSetSrcPort, udpSetDstPort, udpSetLength, read16be, read32be,
        upd_apply, write16be_apply, write32be_apply, writeBytes_apply, hdl, hml, h20] <;>
      decide
  · simp [ethSetSrcAddress, ethSetDstAddress, ethSetTypeIp4, ip4WithDefaults,
      ip4SetVersion, ip4SetHdrLen, ip4SetFlags, ip4SetFragOffset, ip4SetTotalLength,
      ip4SetProtoUdp, ip4SetSrcAddress, ip4SetDstAddress, ip4CalcChecksum,
      udpWithDefaults, udpSetSrcPort, udpSetDstPort, udpSetLength, read16be, read32be,
      upd_apply, write16be_apply, write32be_apply, writeBytes_apply, hdl, hml]
  · simp [ethSetSrcAddress, ethSetDstAddress, ethSetTypeIp4, ip4WithDefaults,
      ip4SetVersion, ip4SetHdrLen, ip4SetFlags, ip4SetFragOffset, ip4SetTotalLength,
      ip4SetProtoUdp, ip4SetSrcAddress, ip4SetDstAddress, ip4CalcChecksum,
      udpWithDefaults, udpSetSrcPort, udpSetDstPort, udpSetLength, read16be, read32be,
      upd_apply, write16be_apply, write32be_apply, writeBytes_apply, hdl, hml]
  · exact checksum_after_udp _ _ _ _
  · simp [ethSetSrcAddress, ethSetDstAddress, ethSetTypeIp4, ip4WithDefaults,
      ip4SetVersion, ip4SetHdrLen, ip4SetFlags, ip4SetFragOffset, ip4SetTotalLength,
      ip4SetProtoUdp, ip4SetSrcAddress, ip4SetDstAddress, ip4CalcChecksum,
      udpWithDefaults, udpSetSrcPort, udpSetDstPort, udpSetLength, read16be, read32be,
      upd_apply, write16be_apply, write32be_apply, writeBytes_apply, hdl, hml]
    omega
  · simp [ethSetSrcAddress, ethSetDstAddress, ethSetTypeIp4, ip4WithDefaults,
      ip4SetVersion, ip4SetHdrLen, ip4SetFlags, ip4SetFragOffset, ip4SetTotalLength,
      ip4SetProtoUdp, ip4SetSrcAddress, ip4SetDstAddress, ip4CalcChecksum,
      udpWithDefaults, udpSetSrcPort, udpSetDstPort, udpSetLength, read16be, read32be,
      upd_apply, write16be_apply, write32be_apply, writeBytes_apply, hdl, hml]
    omega
  · simp [ethSetSrcAddress, ethSetDstAddress, ethSetTypeIp4, ip4WithDefaults,
      ip4SetVersion, ip4SetHdrLen, ip4SetFlags, ip4SetFragOffset, ip4SetTotalLength,
      ip4SetProtoUdp, ip4SetSrcAddress, ip4SetDstAddress, ip4CalcChecksum,
      udpWithDefaults, udpSetSrcPort, udpSetDstPort, udpSetLength, read16be, read32be,
      upd_apply, write16be_apply, write32be_apply, writeBytes_apply, hdl, hml]
    omega
  · simp [ethSetSrcAddress, ethSetDstAddress, ethSetTypeIp4, ip4WithDefaults,
      ip4SetVersion, ip4SetHdrLen, ip4SetFlags, ip4SetFragOffset, ip4SetTotalLength,
      ip4SetProtoUdp, ip4SetSrcAddress, ip4SetDstAddress, ip4CalcChecksum,
      udpWithDefaults, udpSetSrcPort, udpSetDstPort, udpSetLength, read16be, read32be,
      upd_apply, write16be_apply, write32be_apply, writeBytes_apply, hdl, hml]
    omega
  · simp [ethSetSrcAddress, ethSetDstAddress, ethSetTypeIp4, ip4WithDefaults,
      ip4SetVersion, ip4SetHdrLen, ip4SetFlags, ip4SetFragOffset, ip4SetTotalLength,
      ip4SetProtoUdp, ip4SetSrcAddress, ip4SetDstAddress, ip4CalcChecksum,
      udpWithDefaults, udpSetSrcPort, udpSetDstPort, udpSetLength, read16be, read32be,
      upd_apply, write16be_apply, write32be_apply, writeBytes_apply, hdl, hml]
    omega
  · simp [ethSetSrcAddress, ethSetDstAddress, ethSetTypeIp4, ip4WithDefaults,
      ip4SetVersion, ip4SetHdrLen, ip4SetFlags, ip4SetFragOffset, ip4SetTotalLength,
      ip4SetProtoUdp, ip4SetSrcAddress, ip4SetDstAddress, ip4CalcChecksum,
      udpWithDefaults, udpSetSrcPort, udpSetDstPort, udpSetLength, read16be, read32be,
      upd_apply, write16be_apply, write32be_apply, writeBytes_apply, hdl, hml]

/-- Witness for C4: a concrete stack (MAC 01:02:03:04:05:06, bind
10.0.0.1:4242) sending a 4-byte payload (packet length 46) to 10.0.0.2:8000
whose MAC 09:08:07:06:05:04 is cached. -/
theorem claim_C4_send_payload_witness :
    ∃ out,
      sendPayload
          ⟨[1, 2, 3, 4, 5, 6], 167772161, 4242,
            fun a => if a = 167772162 then some [9, 8, 7, 6, 5, 4] else none⟩
          167772162 8000 4096 46 (fun _ => 0) = some (out, 46 % 2 ^ 32) ∧
      46 % 2 ^ 32 = 46 ∧
      (∀ i, i < 6 → out i = [9, 8, 7, 6, 5, 4].getD i 0) ∧
      (∀ i, i < 6 → out (6 + i) = [1, 2, 3, 4, 5, 6].getD i 0) ∧
      out 12 = 0x08 ∧ out 13 = 0x00 ∧
      out 14 = 0x45 ∧
      out 15 = 0 ∧
      read16be out 16 = 46 - 14 ∧
      read16be out 18 = 0 ∧
      (read16be out 20).testBit 14 = true ∧
      read16be out 20 % 2 ^ 13 = 0 ∧
      out 22 = 64 ∧
      out 23 = 17 ∧
      read16be out 24 =
        (2 ^ 32 - 1 - foldChecksum (checksumWordsGo (write16be out 24 0) 14 10)) % 2 ^ 16 ∧
      read32be out 26 = 167772161 ∧
      read32be out 30 = 167772162 ∧
      read16be out 34 = 4242 ∧
      read16be out 36 = 8000 ∧
      read16be out 38 = 46 - 34 ∧
      read16be out 40 = 0 :=
  claim_C4_send_payload
    ⟨[1, 2, 3, 4, 5, 6], 167772161, 4242,
      fun a => if a = 167772162 then some [9, 8, 7, 6, 5, 4] else none⟩
    167772162 8000 4096 46 (fun _ => 0) [9, 8, 7, 6, 5, 4] rfl rfl rfl
    (by norm_num) (by norm_num) (by norm_num) (by norm_num) (by norm_num)
    (by norm_num) (by norm_num)

end Net

end H2O2
